import Mathlib

/-!
Verification of the Lightdash project data-access layer
(`packages/backend/src/models/ProjectModel/ProjectModel.ts`).

The database is embedded shallowly: each relational table is a list of row
structures inside a `Db` record, a transaction is a function that either
returns the updated database (`commit`) or an error with the original
database unchanged (`rollback`), and JavaScript/SQL behaviours that matter
to the claims (falsy checks, `find(...)?.field` lookups that can yield
`undefined`, NOT NULL constraint violations, grouped `max()` aggregation)
are modelled explicitly.
-/

namespace LightdashProjectModel

/-- Errors surfaced by the model layer.  `notExistsError` and
`alreadyExistsError` are the domain errors (`NotExistsError`,
`AlreadyExistsError` from `@lightdash/common`); `runtimeError` models a raw
JavaScript `TypeError` (reading a property of `undefined`); `databaseError`
models an uncaught storage-layer constraint violation (`DatabaseError`). -/
inductive AppError : Type where
  | notExistsError : AppError
  | alreadyExistsError : AppError
  | runtimeError : AppError
  | databaseError : AppError
deriving Repr, DecidableEq

/-! ## Credential secret-merge utility (`mergeMissingDbtConfigSecrets`,
`mergeMissingWarehouseSecrets`)

A connection configuration is a connection `type` plus a map from field
names to values; `none` models a JavaScript `undefined`/absent field and
`some ""` models an explicitly cleared (empty string) value. -/

/-- Models the JavaScript falsiness test `!config[secretKey]` on a
string-valued field: `undefined` (absent) and the empty string are falsy. -/
def isFalsy : Option String → Bool
  | none => true
  | some s => s == ""

/-- Modelled from the spec: the list `sensitiveDbtCredentialsFieldNames`
is imported from `@lightdash/common`, which is not part of the sources
under verification.  The merge functions only consult membership in the
list, so its exact contents are immaterial to the claims. -/
def sensitiveDbtCredentialsFieldNames : List String :=
  ["personal_access_token", "api_key", "keyfile_contents", "password"]

/-- Modelled from the spec: the list `sensitiveCredentialsFieldNames`
is imported from `@lightdash/common` (see
`sensitiveDbtCredentialsFieldNames`). -/
def sensitiveCredentialsFieldNames : List String :=
  ["user", "password", "keyfileContents", "personalAccessToken"]

/-- A dbt connection configuration: a connection type plus its fields. -/
structure DbtProjectConfig where
  type : String
  fields : String → Option String

/-- A warehouse connection configuration: a connection type plus fields. -/
structure CreateWarehouseCredentials where
  type : String
  fields : String → Option String

/-- Embeds `ProjectModel.mergeMissingDbtConfigSecrets`: if the connection
types differ, return `incompleteConfig` unchanged; otherwise spread over
`incompleteConfig` an object holding, for each sensitive field name where
`incompleteConfig`'s value is falsy and `completeConfig`'s is truthy, the
value from `completeConfig`. -/
def mergeMissingDbtConfigSecrets
    (incompleteConfig completeConfig : DbtProjectConfig) : DbtProjectConfig :=
  if incompleteConfig.type ≠ completeConfig.type then
    incompleteConfig
  else
    { incompleteConfig with
      fields := fun secretKey =>
        if secretKey ∈ sensitiveDbtCredentialsFieldNames
            ∧ isFalsy (incompleteConfig.fields secretKey) = true
            ∧ isFalsy (completeConfig.fields secretKey) = false then
          completeConfig.fields secretKey
        else
          incompleteConfig.fields secretKey }

/-- Embeds `ProjectModel.mergeMissingWarehouseSecrets`; identical in shape
to `mergeMissingDbtConfigSecrets` but over the warehouse credential type
and `sensitiveCredentialsFieldNames`. -/
def mergeMissingWarehouseSecrets
    (incompleteConfig completeConfig : CreateWarehouseCredentials) :
    CreateWarehouseCredentials :=
  if incompleteConfig.type ≠ completeConfig.type then
    incompleteConfig
  else
    { incompleteConfig with
      fields := fun secretKey =>
        if secretKey ∈ sensitiveCredentialsFieldNames
            ∧ isFalsy (incompleteConfig.fields secretKey) = true
            ∧ isFalsy (completeConfig.fields secretKey) = false then
          completeConfig.fields secretKey
        else
          incompleteConfig.fields secretKey }

/-- An incomplete dbt config with an explicitly cleared secret field. -/
def dbtIncompleteEx : DbtProjectConfig :=
  { type := "dbt"
    fields := fun k => if k == "personal_access_token" then some "" else none }

/-- A stored complete dbt config with a non-empty value for the secret
field that `dbtIncompleteEx` cleared. -/
def dbtCompleteEx : DbtProjectConfig :=
  { type := "dbt"
    fields := fun k => if k == "personal_access_token" then some "SECRET" else none }

/-- An incomplete warehouse config with an explicitly cleared password. -/
def whIncompleteEx : CreateWarehouseCredentials :=
  { type := "postgres"
    fields := fun k => if k == "password" then some "" else none }

/-- A stored complete warehouse config with a non-empty password. -/
def whCompleteEx : CreateWarehouseCredentials :=
  { type := "postgres"
    fields := fun k => if k == "password" then some "PW" else none }

/-- A dbt config used for the type-mismatch witness. -/
def dbtOtherTypeEx : DbtProjectConfig :=
  { type := "dbt_cloud_ide"
    fields := fun k => if k == "api_key" then some "K" else none }

/-- A warehouse config used for the type-mismatch witness. -/
def whOtherTypeEx : CreateWarehouseCredentials :=
  { type := "bigquery"
    fields := fun k => if k == "keyfileContents" then some "J" else none }

/-! ## The relational store

One structure per table row.  Each row keeps its key and foreign-key
columns explicitly; all remaining columns, which every copy step carries
over verbatim with an object spread, are abstracted as a single `rest`
field that is likewise carried verbatim. -/

/-- A row of `projects` (the columns this model consults). -/
structure ProjectRow where
  project_id : Nat
  project_uuid : String
deriving Repr, DecidableEq

/-- A row of `spaces`. -/
structure SpaceRow where
  space_id : Nat
  space_uuid : String
  project_id : Nat
  rest : String
deriving Repr, DecidableEq

/-- A row of `space_share`. -/
structure SpaceShareRow where
  space_id : Nat
  rest : String
deriving Repr, DecidableEq

/-- A row of `saved_queries` (a chart). -/
structure SavedChartRow where
  saved_query_id : Nat
  saved_query_uuid : String
  space_id : Nat
  rest : String
deriving Repr, DecidableEq

/-- A row of `saved_queries_versions`. -/
structure ChartVersionRow where
  saved_queries_version_id : Nat
  saved_queries_version_uuid : String
  saved_query_id : Nat
  rest : String
deriving Repr, DecidableEq

/-- A row of one of the four chart-version content tables
(`saved_queries_version_table_calculations`, `..._sorts`, `..._fields`,
`..._additional_metrics`); `content_id` is the table's own surrogate key
(the `fieldId` deleted before re-insert). -/
structure ChartVersionContentRow where
  content_id : Nat
  saved_queries_version_id : Nat
  rest : String
deriving Repr, DecidableEq

/-- A row of `dashboards`. -/
structure DashboardRow where
  dashboard_id : Nat
  dashboard_uuid : String
  space_id : Nat
  rest : String
deriving Repr, DecidableEq

/-- A row of `dashboard_versions`. -/
structure DashboardVersionRow where
  dashboard_version_id : Nat
  dashboard_id : Nat
  rest : String
deriving Repr, DecidableEq

/-- A row of `dashboard_tiles`; the tile UUID together with the dashboard
version id identifies the tile (no surrogate serial key). -/
structure DashboardTileRow where
  dashboard_tile_uuid : String
  dashboard_version_id : Nat
  rest : String
deriving Repr, DecidableEq

/-- A row of one of the three tile-content tables
(`dashboard_tile_charts`, `dashboard_tile_looms`,
`dashboard_tile_markdowns`).  Only `dashboard_tile_charts` rows carry a
`saved_chart_id` (nullable); for the other two tables the field is
`none`. -/
structure TileContentRow where
  dashboard_tile_uuid : String
  dashboard_version_id : Nat
  saved_chart_id : Option Nat
  rest : String
deriving Repr, DecidableEq

/-- An `{id, newId}` entry of a clone mapping. -/
structure IdMapEntry where
  id : Nat
  newId : Nat
deriving Repr, DecidableEq

/-- The `content_mapping` payload persisted in `preview_content`
(`PreviewContentMapping`). -/
structure PreviewContentMapping where
  charts : List IdMapEntry
  chartVersions : List IdMapEntry
  spaces : List IdMapEntry
  dashboards : List IdMapEntry
  dashboardVersions : List IdMapEntry
deriving Repr, DecidableEq

/-- A row of `preview_content`. -/
structure PreviewContentRow where
  project_uuid : String
  preview_project_uuid : String
  content_mapping : PreviewContentMapping
deriving Repr, DecidableEq

/-- A row of `emails` joined with its owning `users` row: the access
queries only read `users.user_id` next to the email, so the join of the
two tables is modelled as this flattened row. -/
structure EmailRow where
  user_id : Nat
  email : String
deriving Repr, DecidableEq

/-- A row of `project_memberships`. -/
structure ProjectMembershipRow where
  project_id : Nat
  user_id : Nat
  role : String
deriving Repr, DecidableEq

/-- A row of `cached_explores`; the snapshot payload (the serialized
explore array) is opaque to the model. -/
structure CachedExploresRow where
  project_uuid : String
  explores : String
deriving Repr, DecidableEq

/-- The relational database state.  `seq` models the shared position of
the storage engine's id sequences: surrogate ids handed to newly inserted
rows are `seq`, `seq + 1`, … and are therefore fresh whenever every id
already present is below `seq`. -/
structure Db where
  projects : List ProjectRow
  spaces : List SpaceRow
  space_share : List SpaceShareRow
  saved_queries : List SavedChartRow
  saved_queries_versions : List ChartVersionRow
  saved_queries_version_table_calculations : List ChartVersionContentRow
  saved_queries_version_sorts : List ChartVersionContentRow
  saved_queries_version_fields : List ChartVersionContentRow
  saved_queries_version_additional_metrics : List ChartVersionContentRow
  dashboards : List DashboardRow
  dashboard_versions : List DashboardVersionRow
  dashboard_tiles : List DashboardTileRow
  dashboard_tile_charts : List TileContentRow
  dashboard_tile_looms : List TileContentRow
  dashboard_tile_markdowns : List TileContentRow
  preview_content : List PreviewContentRow
  emails : List EmailRow
  project_memberships : List ProjectMembershipRow
  cached_explores : List CachedExploresRow
  seq : Nat
deriving Repr, DecidableEq, Inhabited

/-! ## Advisory lock coordinator (`tryAcquireProjectLock`) -/

/-- The advisory-lock namespace used for cache refreshes. -/
def CACHED_EXPLORES_PG_LOCK_NAMESPACE : Nat := 1

/-- Which of the two continuations of `tryAcquireProjectLock` ran inside
the transaction. -/
structure LockOutcome where
  ranOnLockAcquired : Bool
  ranOnLockFailed : Bool
deriving Repr, DecidableEq

/-- Embeds `ProjectModel.tryAcquireProjectLock`.  The SQL selects
`pg_try_advisory_xact_lock(1, project_id)` from the row with the given
uuid (`LIMIT 1`); `locksHeldElsewhere` lists the `(namespace, key)` pairs
whose transaction-scoped lock a concurrent transaction currently holds, so
the primitive returns true exactly when the pair is not in that list.  No
row means both continuations are skipped; otherwise `onLockAcquired` runs
when the lock was acquired, else `onLockFailed` when it was supplied. -/
def tryAcquireProjectLock (db : Db) (locksHeldElsewhere : List (Nat × Nat))
    (hasOnLockFailed : Bool) (projectUuid : String) : LockOutcome :=
  match db.projects.find? (fun p => p.project_uuid == projectUuid) with
  | none => ⟨false, false⟩
  | some p =>
    let acquiresLock :=
      !(locksHeldElsewhere.contains
        (CACHED_EXPLORES_PG_LOCK_NAMESPACE, p.project_id))
    if acquiresLock then ⟨true, false⟩
    else if hasOnLockFailed then ⟨false, true⟩
    else ⟨false, false⟩

/-! ## Explore cache store (`saveExploresToCache`, `getExploresFromCache`) -/

/-- Models the `insert … onConflict('project_uuid').merge()` upsert on
the `cached_explores` table: when a row with the uuid exists it is
updated in place, otherwise the new row is appended. -/
def upsertExplores (l : List CachedExploresRow) (projectUuid explores : String) :
    List CachedExploresRow :=
  if l.any (fun r => r.project_uuid == projectUuid) then
    l.map (fun r =>
      if r.project_uuid == projectUuid then { r with explores := explores } else r)
  else
    l ++ [⟨projectUuid, explores⟩]

/-- Embeds `ProjectModel.saveExploresToCache`: upsert keyed by
`project_uuid`, returning the stored row. -/
def saveExploresToCache (db : Db) (projectUuid explores : String) :
    Db × CachedExploresRow :=
  ({ db with cached_explores := upsertExplores db.cached_explores projectUuid explores },
   ⟨projectUuid, explores⟩)

/-- Embeds `ProjectModel.getExploresFromCache`: select the first row with
the uuid (`LIMIT 1`) and return its payload, or `undefined` when there is
none. -/
def getExploresFromCache (db : Db) (projectUuid : String) : Option String :=
  (db.cached_explores.find? (fun r => r.project_uuid == projectUuid)).map
    (fun r => r.explores)

/-! ## Project access control (`createProjectAccess`) -/

/-- Embeds `ProjectModel.createProjectAccess`.  The project row is read
first (`project.project_id` of a missing row raises a raw `TypeError`,
modelled as `runtimeError`); an unknown email raises `NotExistsError`; the
membership insert hits the `(project_id, user_id)` uniqueness constraint —
a `DatabaseError` the catch block translates to `AlreadyExistsError` — and
then persists nothing; otherwise the membership row is inserted. -/
def createProjectAccess (db : Db) (projectUuid email role : String) :
    Db × Option AppError :=
  match db.projects.find? (fun p => p.project_uuid == projectUuid) with
  | none => (db, some .runtimeError)
  | some project =>
    match db.emails.find? (fun e => e.email == email) with
    | none => (db, some .notExistsError)
    | some user =>
      if db.project_memberships.any (fun m =>
          m.project_id == project.project_id && m.user_id == user.user_id) then
        (db, some .alreadyExistsError)
      else
        ({ db with project_memberships :=
            db.project_memberships ++ [⟨project.project_id, user.user_id, role⟩] },
         none)

/-- A database with one project, used by the lock witness. -/
def lockDbEx : Db := { (default : Db) with projects := [⟨7, "proj"⟩] }

/-- A database with one project and one registered email, used by the
access-control witness. -/
def accessDbEx : Db :=
  { (default : Db) with
    projects := [⟨3, "p1"⟩]
    emails := [⟨11, "alice@example.com"⟩] }

/-! ## Project content cloner (`duplicateContent`)

Each `await trx(table).insert(rows).returning('*')` becomes a step
function producing the inserted rows (or a storage-layer error), and the
transaction body threads the database through the steps exactly in source
order.  Newly generated surrogate ids come from the sequence counter
`Db.seq`; `enumFrom` models `rows.map((d, i) => …)`. -/

/-- Pairs every element of a list with its index, starting at `i`
(JavaScript's `array.map((d, i) => …)` index). -/
def enumFrom {α : Type} : Nat → List α → List (Nat × α)
  | _, [] => []
  | i, a :: as => (i, a) :: enumFrom (i + 1) as

/-- Runs a fallible per-row computation over every row of a batch insert;
the first storage-layer rejection aborts the whole statement. -/
def mapExcept {α β : Type} (f : α → Except AppError β) :
    List α → Except AppError (List β)
  | [] => .ok []
  | a :: as =>
    match f a, mapExcept f as with
    | .ok b, .ok bs => .ok (b :: bs)
    | .error e, _ => .error e
    | .ok _, .error e => .error e

/-- Models writing a `find(…)?.newId` result (possibly `undefined`) into a
NOT NULL column: the database rejects the insert with a constraint
violation when the lookup did not resolve.  (The TypeScript `!` on these
expressions is a compile-time assertion with no runtime effect.) -/
def bangCol {α : Type} : Option α → Except AppError α
  | some a => .ok a
  | none => .error .databaseError

/-- Embeds the local helper `getNewSpace`:
`spaceMapping.find((s) => s.id === oldSpaceId)?.newId`. -/
def getNewSpace (spaceMapping : List IdMapEntry) (oldSpaceId : Nat) : Option Nat :=
  (spaceMapping.find? (fun s => s.id == oldSpaceId)).map (fun s => s.newId)

/-- Embeds the inline `mapping.find((m) => m.id === oldId)?.newId`
lookups used for charts, chart versions, dashboards and dashboard
versions. -/
def findNewId (mapping : List IdMapEntry) (oldId : Nat) : Option Nat :=
  (mapping.find? (fun m => m.id == oldId)).map (fun m => m.newId)

/-- The `id` column of a mapping. -/
def mappingIds (mapping : List IdMapEntry) : List Nat :=
  mapping.map (fun m => m.id)

/-- `trx('spaces').where('project_id', projectId)`. -/
def sourceSpaces (db : Db) (projectId : Nat) : List SpaceRow :=
  db.spaces.filter (fun s => s.project_id == projectId)

/-- The ids of the source project's spaces (`spaces.map((s) => s.space_id)`). -/
def spaceIdsOf (db : Db) (projectId : Nat) : List Nat :=
  (sourceSpaces db projectId).map (fun s => s.space_id)

/-- `trx('space_share').whereIn('space_id', spaceIds)`. -/
def sharesToCopy (shares : List SpaceShareRow) (spaceIds : List Nat) :
    List SpaceShareRow :=
  shares.filter (fun d => spaceIds.contains d.space_id)

/-- `trx('saved_queries').leftJoin('spaces', …).where('spaces.project_id',
projectId).select('saved_queries.*')`: the charts whose joined space row
belongs to the project. -/
def chartsInProject (allSpaces : List SpaceRow) (allCharts : List SavedChartRow)
    (projectId : Nat) : List SavedChartRow :=
  allCharts.filter (fun q =>
    match allSpaces.find? (fun s => s.space_id == q.space_id) with
    | some s => s.project_id == projectId
    | none => false)

/-- The chart selection applied to the database state. -/
def sourceCharts (db : Db) (projectId : Nat) : List SavedChartRow :=
  chartsInProject db.spaces db.saved_queries projectId

/-- `charts.map((d) => d.saved_query_id)`. -/
def chartIdsOf (db : Db) (projectId : Nat) : List Nat :=
  (sourceCharts db projectId).map (fun c => c.saved_query_id)

/-- The dashboards join, identical in shape to `chartsInProject`. -/
def dashboardsInProject (allSpaces : List SpaceRow)
    (allDashboards : List DashboardRow) (projectId : Nat) : List DashboardRow :=
  allDashboards.filter (fun q =>
    match allSpaces.find? (fun s => s.space_id == q.space_id) with
    | some s => s.project_id == projectId
    | none => false)

/-- The dashboard selection applied to the database state. -/
def sourceDashboards (db : Db) (projectId : Nat) : List DashboardRow :=
  dashboardsInProject db.spaces db.dashboards projectId

/-- `dashboards.map((d) => d.dashboard_id)`. -/
def dashboardIdsOf (db : Db) (projectId : Nat) : List Nat :=
  (sourceDashboards db projectId).map (fun d => d.dashboard_id)

/-- SQL `max()` over a column of a group (PostgreSQL integer maximum of a
nonempty group; the fold seed is irrelevant because groups are nonempty
and ids are nonnegative). -/
def listMax (l : List Nat) : Nat := l.foldl max 0

/-- `…​.groupBy(parent).max(versionId)`: one maximum per distinct parent
appearing among the pairs `(parent, versionId)`. -/
def groupByMax (pairs : List (Nat × Nat)) : List Nat :=
  (pairs.map Prod.fst).dedup.map (fun g =>
    listMax ((pairs.filter (fun q => q.1 == g)).map Prod.snd))

/-- `trx('saved_queries_versions').whereIn('saved_query_id', chartIds)
.groupBy('saved_query_id').max('saved_queries_version_id')`. -/
def chartLastVersionIds (versions : List ChartVersionRow) (chartIds : List Nat) :
    List Nat :=
  groupByMax ((versions.filter (fun v => chartIds.contains v.saved_query_id)).map
    (fun v => (v.saved_query_id, v.saved_queries_version_id)))

/-- `trx('saved_queries_versions').whereIn('saved_queries_version_id',
lastVersionIds.map((d) => d.max))`. -/
def chartVersionsToCopy (versions : List ChartVersionRow) (chartIds : List Nat) :
    List ChartVersionRow :=
  versions.filter (fun v =>
    (chartLastVersionIds versions chartIds).contains v.saved_queries_version_id)

/-- `trx('dashboard_versions').whereIn('dashboard_id', dashboardIds)
.groupBy('dashboard_id').max('dashboard_version_id')`, mapped to the max
column. -/
def dashboardLastVersionIds (versions : List DashboardVersionRow)
    (dashboardIds : List Nat) : List Nat :=
  groupByMax ((versions.filter (fun v => dashboardIds.contains v.dashboard_id)).map
    (fun v => (v.dashboard_id, v.dashboard_version_id)))

/-- `trx('dashboard_versions').whereIn('dashboard_version_id',
dashboardVersionIds)`. -/
def dashboardVersionsToCopy (versions : List DashboardVersionRow)
    (dashboardIds : List Nat) : List DashboardVersionRow :=
  versions.filter (fun v =>
    (dashboardLastVersionIds versions dashboardIds).contains v.dashboard_version_id)

/-- `trx('dashboard_tiles').whereIn('dashboard_version_id',
dashboardVersionIds)`. -/
def tilesToCopy (tiles : List DashboardTileRow) (dashboardVersionIds : List Nat) :
    List DashboardTileRow :=
  tiles.filter (fun t => dashboardVersionIds.contains t.dashboard_version_id)

/-- The select of `copyChartVersionContent`:
`trx(table).whereIn('saved_queries_version_id', chartVersionIds)`. -/
def chartVersionContentToCopy (content : List ChartVersionContentRow)
    (chartVersionIds : List Nat) : List ChartVersionContentRow :=
  content.filter (fun d => chartVersionIds.contains d.saved_queries_version_id)

/-- The select of `copyDashboardTileContent`:
`trx(table).whereIn('dashboard_tile_uuid', dashboardTileUuids)
.and.whereIn('dashboard_version_id', dashboardVersionIds)`. -/
def tileContentToCopy (content : List TileContentRow)
    (dashboardTileUuids : List String) (dashboardVersionIds : List Nat) :
    List TileContentRow :=
  content.filter (fun d =>
    dashboardTileUuids.contains d.dashboard_tile_uuid
      && dashboardVersionIds.contains d.dashboard_version_id)

/-- The version ids of the copied (latest) chart versions
(`chartVersions.map((d) => d.saved_queries_version_id)`). -/
def chartVersionIdsOf (db : Db) (projectId : Nat) : List Nat :=
  (chartVersionsToCopy db.saved_queries_versions (chartIdsOf db projectId)).map
    (fun v => v.saved_queries_version_id)

/-- The ids of the latest dashboard versions
(`lastDashboardVersionsIds.map((d) => d.max)`). -/
def dashboardVersionIdsOf (db : Db) (projectId : Nat) : List Nat :=
  dashboardLastVersionIds db.dashboard_versions (dashboardIdsOf db projectId)

/-- The tile uuids of the copied dashboard tiles
(`dashboardTiles.map((dv) => dv.dashboard_tile_uuid)`). -/
def tileUuidsOf (db : Db) (projectId : Nat) : List String :=
  (tilesToCopy db.dashboard_tiles (dashboardVersionIdsOf db projectId)).map
    (fun t => t.dashboard_tile_uuid)

/-- Insert of the copied spaces: same field values, fresh `space_id` and
`space_uuid`, `project_id` pointed at the preview project.  Reading
`previewProject.project_id` when no preview project row was found is a raw
`TypeError`; it is only reached when at least one space is inserted. -/
def mkNewSpaces (seq0 : Nat) (previewProject : Option ProjectRow)
    (spaces : List SpaceRow) : Except AppError (List SpaceRow) :=
  if spaces.isEmpty then .ok []
  else
    match previewProject with
    | none => .error .runtimeError
    | some pp =>
      .ok ((enumFrom 0 spaces).map (fun ir =>
        { ir.2 with
          space_id := seq0 + ir.1
          space_uuid := "uuid-" ++ toString (seq0 + ir.1)
          project_id := pp.project_id }))

/-- Insert of the copied space shares, rewriting `space_id` through
`getNewSpace`. -/
def mkNewSpaceShares (spaceMapping : List IdMapEntry)
    (spaceShares : List SpaceShareRow) : Except AppError (List SpaceShareRow) :=
  if spaceShares.isEmpty then .ok []
  else
    mapExcept (fun d =>
      match bangCol (getNewSpace spaceMapping d.space_id) with
      | .error e => .error e
      | .ok sid => .ok { d with space_id := sid }) spaceShares

/-- Insert of the copied charts: fresh id and uuid, `space_id` rewritten
through `getNewSpace`. -/
def mkNewCharts (seq0 : Nat) (spaceMapping : List IdMapEntry)
    (charts : List SavedChartRow) : Except AppError (List SavedChartRow) :=
  if charts.isEmpty then .ok []
  else
    mapExcept (fun ic =>
      match bangCol (getNewSpace spaceMapping ic.2.space_id) with
      | .error e => .error e
      | .ok sid => .ok { ic.2 with
          saved_query_id := seq0 + ic.1
          saved_query_uuid := "uuid-" ++ toString (seq0 + ic.1)
          space_id := sid }) (enumFrom 0 charts)

/-- Insert of the copied (latest) chart versions: fresh id and uuid,
`saved_query_id` rewritten through `chartMapping`. -/
def mkNewChartVersions (seq0 : Nat) (chartMapping : List IdMapEntry)
    (chartVersions : List ChartVersionRow) :
    Except AppError (List ChartVersionRow) :=
  if chartVersions.isEmpty then .ok []
  else
    mapExcept (fun iv =>
      match bangCol (findNewId chartMapping iv.2.saved_query_id) with
      | .error e => .error e
      | .ok qid => .ok { iv.2 with
          saved_queries_version_id := seq0 + iv.1
          saved_queries_version_uuid := "uuid-" ++ toString (seq0 + iv.1)
          saved_query_id := qid }) (enumFrom 0 chartVersions)

/-- Embeds the local helper `copyChartVersionContent(table, fieldId)`:
select the rows of the copied chart versions, skip the insert entirely
when there are none, otherwise re-insert them with the per-table surrogate
key deleted (freshly assigned) and `saved_queries_version_id` rewritten
through `chartVersionMapping`. -/
def copyChartVersionContent (seq0 : Nat) (chartVersionIds : List Nat)
    (chartVersionMapping : List IdMapEntry)
    (content : List ChartVersionContentRow) :
    Except AppError (List ChartVersionContentRow) :=
  let rows := chartVersionContentToCopy content chartVersionIds
  if rows.isEmpty then .ok []
  else
    mapExcept (fun ir =>
      match bangCol (findNewId chartVersionMapping ir.2.saved_queries_version_id) with
      | .error e => .error e
      | .ok vid => .ok { ir.2 with
          content_id := seq0 + ir.1
          saved_queries_version_id := vid }) (enumFrom 0 rows)

/-- Insert of the copied dashboards: fresh id and uuid, `space_id`
rewritten through `getNewSpace`. -/
def mkNewDashboards (seq0 : Nat) (spaceMapping : List IdMapEntry)
    (dashboards : List DashboardRow) : Except AppError (List DashboardRow) :=
  if dashboards.isEmpty then .ok []
  else
    mapExcept (fun idb =>
      match bangCol (getNewSpace spaceMapping idb.2.space_id) with
      | .error e => .error e
      | .ok sid => .ok { idb.2 with
          dashboard_id := seq0 + idb.1
          dashboard_uuid := "uuid-" ++ toString (seq0 + idb.1)
          space_id := sid }) (enumFrom 0 dashboards)

/-- Insert of the copied (latest) dashboard versions: fresh id,
`dashboard_id` rewritten through `dashboardMapping`. -/
def mkNewDashboardVersions (seq0 : Nat) (dashboardMapping : List IdMapEntry)
    (dashboardVersions : List DashboardVersionRow) :
    Except AppError (List DashboardVersionRow) :=
  if dashboardVersions.isEmpty then .ok []
  else
    mapExcept (fun iv =>
      match bangCol (findNewId dashboardMapping iv.2.dashboard_id) with
      | .error e => .error e
      | .ok did => .ok { iv.2 with
          dashboard_version_id := seq0 + iv.1
          dashboard_id := did }) (enumFrom 0 dashboardVersions)

/-- Insert of the copied dashboard tiles: the `dashboard_tile_uuid` is
kept as-is (the source comment: "we keep the same dashboard_tile_uuid"),
only `dashboard_version_id` is rewritten. -/
def mkNewDashboardTiles (dashboardVersionsMapping : List IdMapEntry)
    (dashboardTiles : List DashboardTileRow) :
    Except AppError (List DashboardTileRow) :=
  if dashboardTiles.isEmpty then .ok []
  else
    mapExcept (fun d =>
      match bangCol (findNewId dashboardVersionsMapping d.dashboard_version_id) with
      | .error e => .error e
      | .ok dvid => .ok { d with dashboard_version_id := dvid }) dashboardTiles

/-- Embeds the local helper `copyDashboardTileContent(table)`: select the
content rows of the copied tiles, skip when empty, otherwise re-insert
rewriting `dashboard_version_id` and `dashboard_tile_uuid` through the
mappings; a truthy `saved_chart_id` is overridden by
`chartMapping.find(…)?.newId` — which is `undefined` (inserted as a silent
NULL, the column being nullable) when the chart is not part of the cloned
scope. -/
def copyDashboardTileContent (chartMapping dashboardVersionsMapping : List IdMapEntry)
    (dashboardTilesMapping : List (String × String))
    (dashboardTileUuids : List String) (dashboardVersionIds : List Nat)
    (content : List TileContentRow) : Except AppError (List TileContentRow) :=
  let rows := tileContentToCopy content dashboardTileUuids dashboardVersionIds
  if rows.isEmpty then .ok []
  else
    mapExcept (fun d =>
      let newSavedChartId : Option Nat :=
        match d.saved_chart_id with
        | some cid =>
          if cid ≠ 0 then findNewId chartMapping cid else some cid
        | none => none
      match bangCol (findNewId dashboardVersionsMapping d.dashboard_version_id) with
      | .error e => .error e
      | .ok dvid =>
        match bangCol ((dashboardTilesMapping.find?
            (fun m => m.1 == d.dashboard_tile_uuid)).map Prod.snd) with
        | .error e => .error e
        | .ok tuid => .ok { d with
            saved_chart_id := newSavedChartId
            dashboard_version_id := dvid
            dashboard_tile_uuid := tuid }) rows

/-- Embeds the callback passed to `this.database.transaction(…)` inside
`duplicateContent`, in source order: resolve the preview and source
projects, copy spaces, space shares, charts, latest chart versions, the
four chart-version content tables, dashboards, latest dashboard versions,
dashboard tiles, the three tile-content tables, and finally insert the
`preview_content` mapping record. -/
def duplicateContentBody (db : Db) (projectUuid previewProjectUuid : String) :
    Except AppError Db :=
  let previewProject := db.projects.find? (fun p => p.project_uuid == previewProjectUuid)
  match db.projects.find? (fun p => p.project_uuid == projectUuid) with
  | none => .error .runtimeError
  | some project =>
    let projectId := project.project_id
    let spaces := sourceSpaces db projectId
    let spaceIds := spaces.map (fun s => s.space_id)
    match mkNewSpaces db.seq previewProject spaces with
    | .error e => .error e
    | .ok newSpaces =>
      let db1 : Db := { db with
        spaces := db.spaces ++ newSpaces
        seq := db.seq + newSpaces.length }
      let spaceMapping := (spaces.zip newSpaces).map (fun sp =>
        IdMapEntry.mk sp.1.space_id sp.2.space_id)
      let spaceShares := sharesToCopy db1.space_share spaceIds
      match mkNewSpaceShares spaceMapping spaceShares with
      | .error e => .error e
      | .ok newSpaceShare =>
        let db2 : Db := { db1 with space_share := db1.space_share ++ newSpaceShare }
        let charts := sourceCharts db2 projectId
        let chartIds := charts.map (fun c => c.saved_query_id)
        match mkNewCharts db2.seq spaceMapping charts with
        | .error e => .error e
        | .ok newCharts =>
          let db3 : Db := { db2 with
            saved_queries := db2.saved_queries ++ newCharts
            seq := db2.seq + newCharts.length }
          let chartMapping := (charts.zip newCharts).map (fun cp =>
            IdMapEntry.mk cp.1.saved_query_id cp.2.saved_query_id)
          let chartVersions := chartVersionsToCopy db3.saved_queries_versions chartIds
          let chartVersionIds := chartVersions.map (fun v => v.saved_queries_version_id)
          match mkNewChartVersions db3.seq chartMapping chartVersions with
          | .error e => .error e
          | .ok newChartVersions =>
            let db4 : Db := { db3 with
              saved_queries_versions := db3.saved_queries_versions ++ newChartVersions
              seq := db3.seq + newChartVersions.length }
            let chartVersionMapping := (chartVersions.zip newChartVersions).map (fun vp =>
              IdMapEntry.mk vp.1.saved_queries_version_id vp.2.saved_queries_version_id)
            match copyChartVersionContent db4.seq chartVersionIds chartVersionMapping
                db4.saved_queries_version_table_calculations with
            | .error e => .error e
            | .ok newTableCalculations =>
              let db5 : Db := { db4 with
                saved_queries_version_table_calculations :=
                  db4.saved_queries_version_table_calculations ++ newTableCalculations
                seq := db4.seq + newTableCalculations.length }
              match copyChartVersionContent db5.seq chartVersionIds chartVersionMapping
                  db5.saved_queries_version_sorts with
              | .error e => .error e
              | .ok newSorts =>
                let db6 : Db := { db5 with
                  saved_queries_version_sorts :=
                    db5.saved_queries_version_sorts ++ newSorts
                  seq := db5.seq + newSorts.length }
                match copyChartVersionContent db6.seq chartVersionIds chartVersionMapping
                    db6.saved_queries_version_fields with
                | .error e => .error e
                | .ok newFields =>
                  let db7 : Db := { db6 with
                    saved_queries_version_fields :=
                      db6.saved_queries_version_fields ++ newFields
                    seq := db6.seq + newFields.length }
                  match copyChartVersionContent db7.seq chartVersionIds chartVersionMapping
                      db7.saved_queries_version_additional_metrics with
                  | .error e => .error e
                  | .ok newAdditionalMetrics =>
                    let db8 : Db := { db7 with
                      saved_queries_version_additional_metrics :=
                        db7.saved_queries_version_additional_metrics ++ newAdditionalMetrics
                      seq := db7.seq + newAdditionalMetrics.length }
                    let dashboards := sourceDashboards db8 projectId
                    let dashboardIds := dashboards.map (fun d => d.dashboard_id)
                    match mkNewDashboards db8.seq spaceMapping dashboards with
                    | .error e => .error e
                    | .ok newDashboards =>
                      let db9 : Db := { db8 with
                        dashboards := db8.dashboards ++ newDashboards
                        seq := db8.seq + newDashboards.length }
                      let dashboardMapping := (dashboards.zip newDashboards).map (fun dp =>
                        IdMapEntry.mk dp.1.dashboard_id dp.2.dashboard_id)
                      let dashboardVersionIds :=
                        dashboardLastVersionIds db9.dashboard_versions dashboardIds
                      let dashboardVersions :=
                        dashboardVersionsToCopy db9.dashboard_versions dashboardIds
                      match mkNewDashboardVersions db9.seq dashboardMapping dashboardVersions with
                      | .error e => .error e
                      | .ok newDashboardVersions =>
                        let db10 : Db := { db9 with
                          dashboard_versions := db9.dashboard_versions ++ newDashboardVersions
                          seq := db9.seq + newDashboardVersions.length }
                        let dashboardVersionsMapping :=
                          (dashboardVersions.zip newDashboardVersions).map (fun vp =>
                            IdMapEntry.mk vp.1.dashboard_version_id vp.2.dashboard_version_id)
                        let dashboardTiles := tilesToCopy db10.dashboard_tiles dashboardVersionIds
                        let dashboardTileUuids := dashboardTiles.map (fun t => t.dashboard_tile_uuid)
                        match mkNewDashboardTiles dashboardVersionsMapping dashboardTiles with
                        | .error e => .error e
                        | .ok newDashboardTiles =>
                          let db11 : Db := { db10 with
                            dashboard_tiles := db10.dashboard_tiles ++ newDashboardTiles }
                          let dashboardTilesMapping :=
                            (dashboardTiles.zip newDashboardTiles).map (fun tp =>
                              (tp.1.dashboard_tile_uuid, tp.2.dashboard_tile_uuid))
                          match copyDashboardTileContent chartMapping dashboardVersionsMapping
                              dashboardTilesMapping dashboardTileUuids dashboardVersionIds
                              db11.dashboard_tile_charts with
                          | .error e => .error e
                          | .ok newTileCharts =>
                            let db12 : Db := { db11 with
                              dashboard_tile_charts :=
                                db11.dashboard_tile_charts ++ newTileCharts }
                            match copyDashboardTileContent chartMapping dashboardVersionsMapping
                                dashboardTilesMapping dashboardTileUuids dashboardVersionIds
                                db12.dashboard_tile_looms with
                            | .error e => .error e
                            | .ok newTileLooms =>
                              let db13 : Db := { db12 with
                                dashboard_tile_looms :=
                                  db12.dashboard_tile_looms ++ newTileLooms }
                              match copyDashboardTileContent chartMapping dashboardVersionsMapping
                                  dashboardTilesMapping dashboardTileUuids dashboardVersionIds
                                  db13.dashboard_tile_markdowns with
                              | .error e => .error e
                              | .ok newTileMarkdowns =>
                                let db14 : Db := { db13 with
                                  dashboard_tile_markdowns :=
                                    db13.dashboard_tile_markdowns ++ newTileMarkdowns }
                                let contentMapping : PreviewContentMapping :=
                                  { charts := chartMapping
                                    chartVersions := chartVersionMapping
                                    spaces := spaceMapping
                                    dashboards := dashboardMapping
                                    dashboardVersions := dashboardVersionsMapping }
                                .ok { db14 with preview_content := db14.preview_content ++
                                  [{ project_uuid := projectUuid
                                     preview_project_uuid := previewProjectUuid
                                     content_mapping := contentMapping }] }

/-- Embeds `ProjectModel.duplicateContent`: the body runs inside
`this.database.transaction`, so a committed body yields the new database
state while any thrown error rolls the transaction back — the database is
unchanged — and propagates. -/
def duplicateContent (db : Db) (projectUuid previewProjectUuid : String) :
    Db × Option AppError :=
  match duplicateContentBody db projectUuid previewProjectUuid with
  | .ok db2 => (db2, none)
  | .error e => (db, some e)

/-- Sequence-freshness invariant of the storage engine: every space id
already present in the database — as a space key or as a chart/dashboard
foreign key — is below the sequence counter, so freshly generated ids
never collide with existing ones. -/
def SeqFresh (db : Db) : Prop :=
  (∀ s ∈ db.spaces, s.space_id < db.seq)
  ∧ (∀ q ∈ db.saved_queries, q.space_id < db.seq)
  ∧ (∀ d ∈ db.dashboards, d.space_id < db.seq)

instance instDecidableSeqFresh (db : Db) : Decidable (SeqFresh db) := by
  unfold SeqFresh; infer_instance

/-- A source project (uuid "src") with one space, one shared space, one
in-scope chart with two versions, a chart in a dangling space (out of
scope), chart-version content, one dashboard with two versions, and a
tile whose chart-tile content references the out-of-scope chart — plus an
empty preview project (uuid "prev"). -/
def cloneDbEx : Db :=
  { (default : Db) with
    projects := [⟨1, "src"⟩, ⟨2, "prev"⟩]
    spaces := [⟨10, "su", 1, "space"⟩]
    space_share := [⟨10, "share-user-5"⟩]
    saved_queries := [⟨20, "cu", 10, "chart"⟩, ⟨21, "cu2", 90, "foreign-chart"⟩]
    saved_queries_versions := [⟨30, "vu0", 20, "v0"⟩, ⟨31, "vu1", 20, "v1"⟩]
    saved_queries_version_table_calculations := [⟨60, 31, "calc"⟩]
    saved_queries_version_fields := [⟨61, 31, "field"⟩, ⟨62, 30, "old-field"⟩]
    dashboards := [⟨40, "du", 10, "dash"⟩]
    dashboard_versions := [⟨50, 40, "dv0"⟩, ⟨51, 40, "dv1"⟩]
    dashboard_tiles := [⟨"tile-1", 51, "tile"⟩, ⟨"tile-2", 50, "old-tile"⟩]
    dashboard_tile_charts := [⟨"tile-1", 51, some 21, "tc"⟩]
    dashboard_tile_markdowns := [⟨"tile-2", 50, none, "md"⟩]
    seq := 100 }

end LightdashProjectModel

namespace LightdashProjectModel

/-- C6 counterexample: the claim says an explicitly empty (empty-string)
secret is never overwritten, but the source uses a JavaScript falsy check
(`!incompleteConfig[secretKey]`), which treats `""` as missing: merging
`dbtIncompleteEx` (secret `""`) with `dbtCompleteEx` (secret `"SECRET"`)
yields `"SECRET"`, and likewise for the warehouse merge. -/
theorem mergeMissingSecrets_emptyString_overwritten :
    dbtIncompleteEx.fields "personal_access_token" = some ""
    ∧ (mergeMissingDbtConfigSecrets dbtIncompleteEx dbtCompleteEx).fields
        "personal_access_token" = some "SECRET"
    ∧ whIncompleteEx.fields "password" = some ""
    ∧ (mergeMissingWarehouseSecrets whIncompleteEx whCompleteEx).fields
        "password" = some "PW" := by
  refine ⟨rfl, ?_, rfl, ?_⟩ <;> rfl

/-- C6 (amended): with matching connection types, a secret field of the
incomplete configuration whose value is falsy (absent or explicitly empty)
is overwritten by the complete configuration's truthy value; the
incomplete value is kept exactly when it is truthy, when the complete
value is falsy, or when the field is not a sensitive field. -/
theorem mergeMissingSecrets_falsyPolicy
    (inc comp : DbtProjectConfig) (winc wcomp : CreateWarehouseCredentials)
    (k : String) (hd : inc.type = comp.type) (hw : winc.type = wcomp.type) :
    (k ∈ sensitiveDbtCredentialsFieldNames →
      isFalsy (inc.fields k) = true → isFalsy (comp.fields k) = false →
      (mergeMissingDbtConfigSecrets inc comp).fields k = comp.fields k)
    ∧ (isFalsy (inc.fields k) = false →
      (mergeMissingDbtConfigSecrets inc comp).fields k = inc.fields k)
    ∧ (isFalsy (comp.fields k) = true →
      (mergeMissingDbtConfigSecrets inc comp).fields k = inc.fields k)
    ∧ (k ∈ sensitiveCredentialsFieldNames →
      isFalsy (winc.fields k) = true → isFalsy (wcomp.fields k) = false →
      (mergeMissingWarehouseSecrets winc wcomp).fields k = wcomp.fields k)
    ∧ (isFalsy (winc.fields k) = false →
      (mergeMissingWarehouseSecrets winc wcomp).fields k = winc.fields k)
    ∧ (isFalsy (wcomp.fields k) = true →
      (mergeMissingWarehouseSecrets winc wcomp).fields k = winc.fields k) := by
  unfold mergeMissingDbtConfigSecrets mergeMissingWarehouseSecrets
  rw [if_neg (by simp [hd]), if_neg (by simp [hw])]
  refine ⟨fun hmem hf ht => ?_, fun ht => ?_, fun hf => ?_,
    fun hmem hf ht => ?_, fun ht => ?_, fun hf => ?_⟩ <;> simp only []
  · rw [if_pos ⟨hmem, hf, ht⟩]
  · rw [if_neg]; simp [ht]
  · rw [if_neg]; simp [hf]
  · rw [if_pos ⟨hmem, hf, ht⟩]
  · rw [if_neg]; simp [ht]
  · rw [if_neg]; simp [hf]

/-- Witness for `mergeMissingSecrets_falsyPolicy` at concrete
configurations. -/
theorem mergeMissingSecrets_falsyPolicy_witness :
    (mergeMissingDbtConfigSecrets dbtIncompleteEx dbtCompleteEx).fields
        "personal_access_token" = dbtCompleteEx.fields "personal_access_token"
    ∧ (mergeMissingWarehouseSecrets whIncompleteEx whCompleteEx).fields
        "password" = whCompleteEx.fields "password" :=
  ⟨(mergeMissingSecrets_falsyPolicy dbtIncompleteEx dbtCompleteEx
      whIncompleteEx whCompleteEx "personal_access_token" rfl rfl).1
      (by decide) rfl rfl,
   (mergeMissingSecrets_falsyPolicy dbtIncompleteEx dbtCompleteEx
      whIncompleteEx whCompleteEx "password" rfl rfl).2.2.2.1
      (by decide) rfl rfl⟩

/-- C7: when the connection types differ, both merge functions return the
incomplete configuration exactly as given. -/
theorem mergeMissingSecrets_typeMismatch
    (inc comp : DbtProjectConfig) (winc wcomp : CreateWarehouseCredentials)
    (hd : inc.type ≠ comp.type) (hw : winc.type ≠ wcomp.type) :
    mergeMissingDbtConfigSecrets inc comp = inc
    ∧ mergeMissingWarehouseSecrets winc wcomp = winc := by
  constructor
  · unfold mergeMissingDbtConfigSecrets; rw [if_pos hd]
  · unfold mergeMissingWarehouseSecrets; rw [if_pos hw]

/-- Witness for `mergeMissingSecrets_typeMismatch` at concrete
configurations with differing connection types. -/
theorem mergeMissingSecrets_typeMismatch_witness :
    mergeMissingDbtConfigSecrets dbtIncompleteEx dbtOtherTypeEx = dbtIncompleteEx
    ∧ mergeMissingWarehouseSecrets whIncompleteEx whOtherTypeEx = whIncompleteEx :=
  mergeMissingSecrets_typeMismatch dbtIncompleteEx dbtOtherTypeEx
    whIncompleteEx whOtherTypeEx (by decide) (by decide)

/-- C5: if no project row matches the uuid, neither continuation runs; if
one matches, `onLockAcquired` runs (alone) when the advisory lock is free,
`onLockFailed` runs (alone) when the lock is held elsewhere and the
callback was supplied; and in no execution do both continuations run. -/
theorem tryAcquireProjectLock_spec (db : Db) (locks : List (Nat × Nat))
    (hasF : Bool) (u : String) :
    (db.projects.find? (fun p => p.project_uuid == u) = none →
      tryAcquireProjectLock db locks hasF u = ⟨false, false⟩)
    ∧ (∀ p, db.projects.find? (fun q => q.project_uuid == u) = some p →
        (locks.contains (CACHED_EXPLORES_PG_LOCK_NAMESPACE, p.project_id) = false →
          tryAcquireProjectLock db locks hasF u = ⟨true, false⟩)
        ∧ (locks.contains (CACHED_EXPLORES_PG_LOCK_NAMESPACE, p.project_id) = true →
          hasF = true →
          tryAcquireProjectLock db locks hasF u = ⟨false, true⟩)
        ∧ (locks.contains (CACHED_EXPLORES_PG_LOCK_NAMESPACE, p.project_id) = true →
          hasF = false →
          tryAcquireProjectLock db locks hasF u = ⟨false, false⟩))
    ∧ ¬((tryAcquireProjectLock db locks hasF u).ranOnLockAcquired = true
        ∧ (tryAcquireProjectLock db locks hasF u).ranOnLockFailed = true) := by
  refine ⟨fun hn => ?_, fun p hp => ⟨fun hfree => ?_, fun hheld hf => ?_,
    fun hheld hf => ?_⟩, ?_⟩
  · simp [tryAcquireProjectLock, hn]
  · have h' : (CACHED_EXPLORES_PG_LOCK_NAMESPACE, p.project_id) ∉ locks := by
      simpa using hfree
    simp [tryAcquireProjectLock, hp, h']
  · have h' : (CACHED_EXPLORES_PG_LOCK_NAMESPACE, p.project_id) ∈ locks := by
      simpa using hheld
    simp [tryAcquireProjectLock, hp, h', hf]
  · have h' : (CACHED_EXPLORES_PG_LOCK_NAMESPACE, p.project_id) ∈ locks := by
      simpa using hheld
    simp [tryAcquireProjectLock, hp, h', hf]
  · unfold tryAcquireProjectLock
    cases hfind : db.projects.find? (fun p => p.project_uuid == u) with
    | none => simp
    | some p =>
      by_cases hc : (CACHED_EXPLORES_PG_LOCK_NAMESPACE, p.project_id) ∈ locks
      · cases hasF <;> simp [hc]
      · simp [hc]

/-- Witness for `tryAcquireProjectLock_spec`: with the lock free the
acquired continuation alone runs, and with an unknown uuid neither runs. -/
theorem tryAcquireProjectLock_spec_witness :
    tryAcquireProjectLock lockDbEx [] true "proj" = ⟨true, false⟩
    ∧ tryAcquireProjectLock lockDbEx [] true "nope" = ⟨false, false⟩ :=
  ⟨((tryAcquireProjectLock_spec lockDbEx [] true "proj").2.1 ⟨7, "proj"⟩ rfl).1 rfl,
   (tryAcquireProjectLock_spec lockDbEx [] true "nope").1 rfl⟩

/-- C8: with the project present, an unknown email raises `NotExistsError`
before any mutation; `AlreadyExistsError` is raised exactly when the
membership insert hits the `(project_id, user_id)` uniqueness violation,
and on that path no membership row is added; otherwise exactly the new
membership row is inserted. -/
theorem createProjectAccess_spec (db : Db) (u em rl : String)
    (project : ProjectRow)
    (hp : db.projects.find? (fun p => p.project_uuid == u) = some project) :
    (db.emails.find? (fun e => e.email == em) = none →
      createProjectAccess db u em rl = (db, some .notExistsError))
    ∧ (∀ user, db.emails.find? (fun e => e.email == em) = some user →
        ((createProjectAccess db u em rl).2 = some .alreadyExistsError ↔
          db.project_memberships.any (fun m =>
            m.project_id == project.project_id && m.user_id == user.user_id) = true)
        ∧ ((createProjectAccess db u em rl).2 = some .alreadyExistsError →
          (createProjectAccess db u em rl).1 = db)
        ∧ (db.project_memberships.any (fun m =>
            m.project_id == project.project_id && m.user_id == user.user_id) = false →
          createProjectAccess db u em rl =
            ({ db with project_memberships := db.project_memberships ++
                [⟨project.project_id, user.user_id, rl⟩] }, none))) := by
  refine ⟨fun hn => ?_, fun user huser => ?_⟩
  · simp [createProjectAccess, hp, hn]
  · by_cases hdup : db.project_memberships.any (fun m =>
      m.project_id == project.project_id && m.user_id == user.user_id) = true
    · refine ⟨?_, ?_, ?_⟩
      · simp [createProjectAccess, hp, huser, hdup]
      · intro _; simp [createProjectAccess, hp, huser, hdup]
      · intro hfalse; rw [hdup] at hfalse; cases hfalse
    · simp only [Bool.not_eq_true] at hdup
      refine ⟨?_, ?_, ?_⟩
      · simp [createProjectAccess, hp, huser, hdup]
      · simp [createProjectAccess, hp, huser, hdup]
      · intro _; simp [createProjectAccess, hp, huser, hdup]

/-- Witness for `createProjectAccess_spec`: the known email inserts one
membership row; an unknown email is a `NotExistsError`. -/
theorem createProjectAccess_spec_witness :
    createProjectAccess accessDbEx "p1" "alice@example.com" "editor" =
      ({ accessDbEx with project_memberships :=
          accessDbEx.project_memberships ++ [⟨3, 11, "editor"⟩] }, none)
    ∧ createProjectAccess accessDbEx "p1" "bob@example.com" "editor" =
      (accessDbEx, some .notExistsError) :=
  ⟨((createProjectAccess_spec accessDbEx "p1" "alice@example.com" "editor"
      ⟨3, "p1"⟩ rfl).2 ⟨11, "alice@example.com"⟩ rfl).2.2 rfl,
   (createProjectAccess_spec accessDbEx "p1" "bob@example.com" "editor"
      ⟨3, "p1"⟩ rfl).1 rfl⟩

/-- Helper: `List.find?` only depends on the pointwise behaviour of its
predicate on the list. -/
theorem find?_congrPred {α : Type} (p q : α → Bool) (l : List α)
    (h : ∀ x ∈ l, p x = q x) : l.find? p = l.find? q := by
  induction l with
  | nil => rfl
  | cons hd tl ih =>
    have hhd := h hd (by simp)
    by_cases hp : p hd = true
    · rw [List.find?_cons_of_pos _ hp, List.find?_cons_of_pos _ (hhd ▸ hp)]
    · rw [List.find?_cons_of_neg _ hp, List.find?_cons_of_neg _ (hhd ▸ hp)]
      exact ih fun x hx => h x (by simp [hx])

/-- Helper: after an upsert for `p`, the first row found for `p` carries
the just-saved payload. -/
theorem find?_upsertExplores (l : List CachedExploresRow) (p s : String) :
    ((upsertExplores l p s).find? (fun r => r.project_uuid == p)).map
      (fun r => r.explores) = some s := by
  unfold upsertExplores
  by_cases hany : l.any (fun r => r.project_uuid == p) = true
  · rw [if_pos hany, List.find?_map]
    rw [find?_congrPred
      ((fun r => r.project_uuid == p) ∘ fun r =>
        if r.project_uuid == p then { r with explores := s } else r)
      (fun r => r.project_uuid == p) l
      (by
        intro x _
        by_cases hx : x.project_uuid == p <;> simp [Function.comp, hx])]
    obtain ⟨r, hr⟩ : ∃ r, l.find? (fun r => r.project_uuid == p) = some r := by
      have := List.find?_isSome.mpr (List.any_eq_true.mp hany)
      exact Option.isSome_iff_exists.mp this
    have hrp := List.find?_some hr
    simp only [] at hrp
    have hrp' : r.project_uuid = p := by simpa using hrp
    simp [hr, hrp']
  · simp only [Bool.not_eq_true] at hany
    rw [if_neg (by simp [hany])]
    have hnone : l.find? (fun r => r.project_uuid == p) = none := by
      rw [List.find?_eq_none]
      intro x hx
      have := List.any_eq_false.mp hany x hx
      simpa using this
    simp [List.find?_append, hnone]

/-- Helper: the upsert keeps at most one row per project: starting from at
most one matching row, the rows matching `p` afterwards are exactly the
single fresh row. -/
theorem filter_upsertExplores (l : List CachedExploresRow) (p s : String)
    (h : (l.filter (fun r => r.project_uuid == p)).length ≤ 1) :
    (upsertExplores l p s).filter (fun r => r.project_uuid == p) = [⟨p, s⟩] := by
  unfold upsertExplores
  by_cases hany : l.any (fun r => r.project_uuid == p) = true
  · rw [if_pos hany]
    have hmapf : (l.map (fun r =>
        if r.project_uuid == p then { r with explores := s } else r)).filter
          (fun r => r.project_uuid == p) =
        (l.filter (fun r => r.project_uuid == p)).map (fun r =>
          if r.project_uuid == p then { r with explores := s } else r) := by
      rw [List.filter_map]
      congr 1
      apply List.filter_congr
      intro x _
      by_cases hx : x.project_uuid == p
      · have hx' : x.project_uuid = p := by simpa using hx
        simp [Function.comp, hx']
      · have hx' : ¬x.project_uuid = p := by simpa using hx
        simp [Function.comp, hx']
    rw [hmapf]
    obtain ⟨r, hr⟩ : ∃ r, l.filter (fun r => r.project_uuid == p) = [r] := by
      have hlen1 : (l.filter (fun r => r.project_uuid == p)).length = 1 := by
        rcases List.any_eq_true.mp hany with ⟨x, hx, hpx⟩
        have hmem : x ∈ l.filter (fun r => r.project_uuid == p) :=
          List.mem_filter.mpr ⟨hx, hpx⟩
        have hpos : 0 < (l.filter (fun r => r.project_uuid == p)).length :=
          List.length_pos.mpr (List.ne_nil_of_mem hmem)
        omega
      exact List.length_eq_one.mp hlen1
    have hrp : r.project_uuid == p := by
      have : r ∈ l.filter (fun r => r.project_uuid == p) := by rw [hr]; simp
      exact (List.mem_filter.mp this).2
    have hrpe : r.project_uuid = p := by simpa using hrp
    simp [hr, hrp, CachedExploresRow.mk.injEq, hrpe]
  · simp only [Bool.not_eq_true] at hany
    rw [if_neg (by simp [hany])]
    have hfl : l.filter (fun r => r.project_uuid == p) = [] := by
      rw [List.filter_eq_nil_iff]
      intro x hx
      have := List.any_eq_false.mp hany x hx
      simpa using this
    simp [List.filter_append, hfl]

/-- C9: saving twice for the same project then reading returns exactly the
second snapshot (last writer wins, full replacement); starting from at
most one cached row the table again holds exactly one row for the
project; and reading a project with no cached row returns the absent
signal instead of throwing. -/
theorem exploreCache_lastWriterWins (db : Db) (p s1 s2 : String) :
    getExploresFromCache
      ((saveExploresToCache ((saveExploresToCache db p s1).1) p s2).1) p = some s2
    ∧ ((db.cached_explores.filter (fun r => r.project_uuid == p)).length ≤ 1 →
      ((saveExploresToCache ((saveExploresToCache db p s1).1) p s2).1).cached_explores.filter
        (fun r => r.project_uuid == p) = [⟨p, s2⟩])
    ∧ (db.cached_explores.filter (fun r => r.project_uuid == p) = [] →
      getExploresFromCache db p = none) := by
  refine ⟨?_, fun hle => ?_, fun hnone => ?_⟩
  · simpa [saveExploresToCache, getExploresFromCache] using
      find?_upsertExplores (upsertExplores db.cached_explores p s1) p s2
  · have h1 : ((upsertExplores db.cached_explores p s1).filter
        (fun r => r.project_uuid == p)).length ≤ 1 := by
      rw [filter_upsertExplores db.cached_explores p s1 hle]; simp
    simpa [saveExploresToCache] using
      filter_upsertExplores (upsertExplores db.cached_explores p s1) p s2 h1
  · have hfind : db.cached_explores.find? (fun r => r.project_uuid == p) = none := by
      rw [List.find?_eq_none]
      intro x hx hpx
      have : x ∈ db.cached_explores.filter (fun r => r.project_uuid == p) :=
        List.mem_filter.mpr ⟨hx, hpx⟩
      rw [hnone] at this; cases this
    simp [getExploresFromCache, hfind]

/-- Helper: `enumFrom` preserves length. -/
theorem enumFrom_length {α : Type} (i : Nat) (l : List α) :
    (enumFrom i l).length = l.length := by
  induction l generalizing i with
  | nil => rfl
  | cons a as ih => simp [enumFrom, ih]

/-- Helper: members of `enumFrom i l` have index at least `i` and carry a
member of `l`. -/
theorem mem_enumFrom {α : Type} {i : Nat} {l : List α} :
    ∀ x ∈ enumFrom i l, i ≤ x.1 ∧ x.2 ∈ l := by
  induction l generalizing i with
  | nil => intro x hx; cases hx
  | cons a as ih =>
    intro x hx
    rw [enumFrom] at hx
    rcases List.mem_cons.mp hx with h | h
    · subst h; exact ⟨le_refl i, by simp⟩
    · obtain ⟨h1, h2⟩ := ih x h
      exact ⟨by omega, by simp [h2]⟩

/-- Helper: a successful `mapExcept` relates input and output rows
pointwise. -/
theorem mapExcept_ok_forall₂ {α β : Type} {f : α → Except AppError β} :
    ∀ {l : List α} {l' : List β}, mapExcept f l = .ok l' →
      List.Forall₂ (fun a b => f a = .ok b) l l' := by
  intro l
  induction l with
  | nil =>
    intro l' h
    unfold mapExcept at h
    injection h with h'
    subst h'
    exact List.Forall₂.nil
  | cons a as ih =>
    intro l' h
    unfold mapExcept at h
    rcases hfa : f a with e | b <;> rw [hfa] at h
    · cases h
    · rcases hrest : mapExcept f as with e | bs <;> rw [hrest] at h
      · cases h
      · injection h with h'
        subst h'
        exact List.Forall₂.cons hfa (ih hrest)

/-- Helper: a successful `mapExcept` preserves length. -/
theorem mapExcept_ok_length {α β : Type} {f : α → Except AppError β}
    {l : List α} {l' : List β} (h : mapExcept f l = .ok l') :
    l'.length = l.length :=
  ((mapExcept_ok_forall₂ h).length_eq).symm

/-- Helper: mapping over a `Forall₂`-related pair of lists gives equal
lists when the relation forces equal images. -/
theorem forall₂_map_eq {α β γ : Type} {R : α → β → Prop} {l : List α}
    {l' : List β} (h : List.Forall₂ R l l') (g : β → γ) (g' : α → γ)
    (hg : ∀ a b, R a b → g b = g' a) : l'.map g = l.map g' := by
  induction h with
  | nil => rfl
  | cons hab _ ih => simp only [List.map_cons, hg _ _ hab, ih]

/-- Helper: `foldl max` returns its seed or a list member. -/
theorem foldl_max_mem (l : List Nat) (a : Nat) :
    l.foldl max a = a ∨ l.foldl max a ∈ l := by
  induction l generalizing a with
  | nil => left; rfl
  | cons x xs ih =>
    rcases ih (max a x) with h | h
    · rcases max_choice a x with hm | hm
      · left; rw [List.foldl_cons, h, hm]
      · right; rw [List.foldl_cons, h, hm]; simp
    · right; simp [List.foldl_cons, h]

/-- Helper: `foldl max` bounds its seed and every member from below. -/
theorem le_foldl_max (l : List Nat) (a : Nat) :
    a ≤ l.foldl max a ∧ ∀ x ∈ l, x ≤ l.foldl max a := by
  induction l generalizing a with
  | nil => exact ⟨le_refl a, by intro x hx; cases hx⟩
  | cons y ys ih =>
    obtain ⟨h1, h2⟩ := ih (max a y)
    refine ⟨le_trans (le_max_left a y) h1, ?_⟩
    intro x hx
    rcases List.mem_cons.mp hx with rfl | hx'
    · exact le_trans (le_max_right a x) h1
    · exact h2 x hx'

/-- Helper: the maximum of a nonempty list of naturals is a member. -/
theorem listMax_mem {l : List Nat} (h : l ≠ []) : listMax l ∈ l := by
  rcases foldl_max_mem l 0 with h0 | h0
  · cases l with
    | nil => exact absurd rfl h
    | cons hd tl =>
      have hle : hd ≤ listMax (hd :: tl) :=
        (le_foldl_max (hd :: tl) 0).2 hd (by simp)
      unfold listMax at hle ⊢
      rw [h0] at hle ⊢
      have : hd = 0 := Nat.le_zero.mp hle
      simp [this]
  · exact h0

/-- Helper: every member of a list is at most its `listMax`. -/
theorem le_listMax {l : List Nat} {x : Nat} (h : x ∈ l) : x ≤ listMax l :=
  (le_foldl_max l 0).2 x h

/-- Helper: every grouped maximum is a second component of some pair. -/
theorem mem_groupByMax_sub {pairs : List (Nat × Nat)} :
    ∀ x ∈ groupByMax pairs, x ∈ pairs.map Prod.snd := by
  intro x hx
  unfold groupByMax at hx
  rcases List.mem_map.mp hx with ⟨g, hg, rfl⟩
  have hg' : g ∈ pairs.map Prod.fst := List.mem_dedup.mp hg
  rcases List.mem_map.mp hg' with ⟨q, hq, rfl⟩
  have hqin : q ∈ pairs.filter (fun r => r.1 == q.1) :=
    List.mem_filter.mpr ⟨hq, by simp⟩
  have hne : (pairs.filter (fun r => r.1 == q.1)).map Prod.snd ≠ [] := by
    have := List.ne_nil_of_mem hqin
    simp [this]
  have hmem := listMax_mem hne
  rcases List.mem_map.mp hmem with ⟨r, hr, hrx⟩
  exact List.mem_map.mpr ⟨r, (List.mem_filter.mp hr).1, hrx⟩

/-- Helper: every grouped maximum is achieved by a pair of its own group:
it is the second component of a pair whose group it is the maximum of. -/
theorem mem_groupByMax_elim {pairs : List (Nat × Nat)} {x : Nat}
    (hx : x ∈ groupByMax pairs) :
    ∃ q ∈ pairs, q.2 = x
      ∧ x = listMax ((pairs.filter (fun r => r.1 == q.1)).map Prod.snd) := by
  unfold groupByMax at hx
  rcases List.mem_map.mp hx with ⟨g, hg, rfl⟩
  have hg' : g ∈ pairs.map Prod.fst := List.mem_dedup.mp hg
  rcases List.mem_map.mp hg' with ⟨p, hp, rfl⟩
  have hpin : p ∈ pairs.filter (fun r => r.1 == p.1) :=
    List.mem_filter.mpr ⟨hp, by simp⟩
  have hne : (pairs.filter (fun r => r.1 == p.1)).map Prod.snd ≠ [] := by
    have := List.ne_nil_of_mem hpin
    simp [this]
  rcases List.mem_map.mp (listMax_mem hne) with ⟨q, hq, hqx⟩
  have hq1 : q.1 = p.1 := by
    have := (List.mem_filter.mp hq).2
    simpa using this
  refine ⟨q, (List.mem_filter.mp hq).1, hqx, ?_⟩
  rw [hq1]

/-- Helper: a duplicate-free list whose members all equal `m`, with `m` a
member, is the singleton `[m]`. -/
theorem nodup_all_eq_singleton {l : List Nat} {m : Nat} (hnd : l.Nodup)
    (hall : ∀ x ∈ l, x = m) (hmem : m ∈ l) : l = [m] := by
  cases l with
  | nil => cases hmem
  | cons x t =>
    have hx : x = m := hall x (by simp)
    subst hx
    have hnotin : x ∉ t := (List.nodup_cons.mp hnd).1
    have ht : t = [] := by
      cases t with
      | nil => rfl
      | cons y t' =>
        have hy : y = x := hall y (by simp)
        subst hy
        exact absurd (by simp : y ∈ y :: t') hnotin
    rw [ht]

/-- Helper (generic latest-version selection): selecting the rows whose
version id is among the grouped maxima of the in-scope rows picks, for
every in-scope parent `c`, exactly the row carrying the maximum version
id of `c` — and nothing when `c` has no rows.  Version ids must be
duplicate-free (they are a primary key). -/
theorem latestSelection_spec {ρ : Type} (pf vf : ρ → Nat) (V : List ρ)
    (parents : List Nat) (hn : (V.map vf).Nodup) (c : Nat) (hc : c ∈ parents) :
    (V.filter (fun v => pf v == c) = [] →
      ((V.filter (fun v =>
        (groupByMax ((V.filter (fun v => parents.contains (pf v))).map
          (fun v => (pf v, vf v)))).contains (vf v))).filter
        (fun v => pf v == c)) = [])
    ∧ (V.filter (fun v => pf v == c) ≠ [] →
      (((V.filter (fun v =>
        (groupByMax ((V.filter (fun v => parents.contains (pf v))).map
          (fun v => (pf v, vf v)))).contains (vf v))).filter
        (fun v => pf v == c)).map vf) =
        [listMax ((V.filter (fun v => pf v == c)).map vf)]) := by
  set S := V.filter (fun v => parents.contains (pf v)) with hS
  set pairs := S.map (fun v => (pf v, vf v)) with hpairs
  set M := groupByMax pairs with hM
  constructor
  · intro hempty
    rw [List.filter_filter, List.filter_eq_nil_iff]
    intro v hv
    have hnc := List.filter_eq_nil_iff.mp hempty v hv
    simp only [Bool.and_eq_true, not_and]
    intro hpc
    exact absurd hpc hnc
  · intro hne
    set vs := V.filter (fun v => pf v == c) with hvs
    set m := listMax (vs.map vf) with hm
    have hSc : S.filter (fun v => pf v == c) = vs := by
      rw [hS, List.filter_filter, hvs]
      apply List.filter_congr
      intro x _
      by_cases hpx : pf x = c
      · simp [hpx, hc]
      · simp [hpx]
    have hPc : pairs.filter (fun q => q.1 == c) = vs.map (fun v => (pf v, vf v)) := by
      rw [hpairs, List.filter_map]
      have h1 : S.filter ((fun q : Nat × Nat => q.1 == c) ∘ fun v => (pf v, vf v)) = vs :=
        hSc
      rw [h1]
    have hgroupc : (pairs.filter (fun q => q.1 == c)).map Prod.snd = vs.map vf := by
      rw [hPc, List.map_map]
      rfl
    have hvsmapne : vs.map vf ≠ [] := by
      intro h0
      exact hne (by simpa using h0)
    rcases List.mem_map.mp (listMax_mem hvsmapne) with ⟨w, hw_vs, hw_m⟩
    have hw_V : w ∈ V := (List.mem_filter.mp (by rw [hvs] at hw_vs; exact hw_vs)).1
    have hw_pf : pf w = c := by
      have := (List.mem_filter.mp (by rw [hvs] at hw_vs; exact hw_vs)).2
      simpa using this
    have hw_S : w ∈ S := by
      rw [hS]
      refine List.mem_filter.mpr ⟨hw_V, ?_⟩
      rw [hw_pf]
      simpa using hc
    have hcin : c ∈ pairs.map Prod.fst := by
      apply List.mem_map.mpr
      refine ⟨(pf w, vf w), ?_, hw_pf⟩
      rw [hpairs]
      exact List.mem_map.mpr ⟨w, hw_S, rfl⟩
    have hmM : m ∈ M := by
      rw [hM]
      unfold groupByMax
      apply List.mem_map.mpr
      refine ⟨c, List.mem_dedup.mpr hcin, ?_⟩
      rw [hgroupc, hm]
    have hkey : ∀ v ∈ V,
        ((pf v == c) && M.contains (vf v)) = ((pf v == c) && (vf v == m)) := by
      intro v hv
      by_cases hpv : pf v = c
      · simp only [hpv, beq_self_eq_true, Bool.true_and]
        by_cases hvm : vf v = m
        · simp [hvm, hmM]
        · have hnotM : vf v ∉ M := by
            intro hvM
            rw [hM] at hvM
            rcases mem_groupByMax_elim hvM with ⟨q, hq, hq2, hqmax⟩
            rcases List.mem_map.mp (by rw [hpairs] at hq; exact hq)
              with ⟨w', hw'_S, hw'q⟩
            have hw'_V : w' ∈ V :=
              (List.mem_filter.mp (by rw [hS] at hw'_S; exact hw'_S)).1
            have hvfw' : vf w' = vf v := by rw [← hq2, ← hw'q]
            have hweq : w' = v := List.inj_on_of_nodup_map hn hw'_V hv hvfw'
            have hq1 : q.1 = c := by
              rw [← hw'q]
              show pf w' = c
              rw [hweq, hpv]
            rw [hq1] at hqmax
            have : vf v = m := by
              rw [hqmax, hgroupc, hm]
            exact hvm this
          simp [hvm, hnotM]
      · have h0 : (pf v == c) = false := by simp [hpv]
        rw [h0]
        simp
    rw [List.filter_filter, List.filter_congr hkey]
    have hsub : ((V.filter (fun v => (pf v == c) && (vf v == m))).map vf).Sublist
        (V.map vf) := List.Sublist.map vf (List.filter_sublist V)
    refine nodup_all_eq_singleton (hn.sublist hsub) ?_ ?_
    · intro x hx
      rcases List.mem_map.mp hx with ⟨v, hv, rfl⟩
      have := (List.mem_filter.mp hv).2
      simp only [Bool.and_eq_true, beq_iff_eq] at this
      exact this.2
    · apply List.mem_map.mpr
      refine ⟨w, List.mem_filter.mpr ⟨hw_V, ?_⟩, hw_m⟩
      simp [hw_pf, hw_m]

/-- Helper: every row selected by the latest-version filter has its
parent among the in-scope parents (version ids being a primary key). -/
theorem latestSelection_parent_mem {ρ : Type} (pf vf : ρ → Nat) (V : List ρ)
    (parents : List Nat) (hn : (V.map vf).Nodup) :
    ∀ v ∈ V.filter (fun v =>
      (groupByMax ((V.filter (fun v => parents.contains (pf v))).map
        (fun v => (pf v, vf v)))).contains (vf v)), pf v ∈ parents := by
  intro v hv
  obtain ⟨hvV, hvM⟩ := List.mem_filter.mp hv
  have hvM' : vf v ∈ groupByMax ((V.filter (fun v => parents.contains (pf v))).map
      (fun v => (pf v, vf v))) := by simpa using hvM
  rcases mem_groupByMax_elim hvM' with ⟨q, hq, hq2, _⟩
  rcases List.mem_map.mp hq with ⟨w, hwS, hwq⟩
  obtain ⟨hwV, hwP⟩ := List.mem_filter.mp hwS
  have hvfw : vf w = vf v := by rw [← hq2, ← hwq]
  have hweq : w = v := List.inj_on_of_nodup_map hn hwV hvV hvfw
  subst hweq
  simpa using hwP

/-- Helper: every chart selected by the join belongs to a space of the
source project, so its `space_id` is among the copied space ids. -/
theorem sourceCharts_space_mem (db : Db) (pid : Nat) :
    ∀ q ∈ sourceCharts db pid, q.space_id ∈ spaceIdsOf db pid := by
  intro q hq
  obtain ⟨hqV, hcond⟩ := List.mem_filter.mp hq
  rcases hfind : db.spaces.find? (fun s => s.space_id == q.space_id) with _ | s
  · rw [hfind] at hcond; cases hcond
  · rw [hfind] at hcond
    have hs_mem : s ∈ db.spaces := List.mem_of_find?_eq_some hfind
    have hs_id : s.space_id = q.space_id := by
      have := List.find?_some hfind
      simpa using this
    have hs_proj : (s.project_id == pid) = true := hcond
    exact List.mem_map.mpr ⟨s, List.mem_filter.mpr ⟨hs_mem, hs_proj⟩, hs_id⟩

/-- Helper: likewise for dashboards. -/
theorem sourceDashboards_space_mem (db : Db) (pid : Nat) :
    ∀ q ∈ sourceDashboards db pid, q.space_id ∈ spaceIdsOf db pid := by
  intro q hq
  obtain ⟨hqV, hcond⟩ := List.mem_filter.mp hq
  rcases hfind : db.spaces.find? (fun s => s.space_id == q.space_id) with _ | s
  · rw [hfind] at hcond; cases hcond
  · rw [hfind] at hcond
    have hs_mem : s ∈ db.spaces := List.mem_of_find?_eq_some hfind
    have hs_id : s.space_id = q.space_id := by
      have := List.find?_some hfind
      simpa using this
    have hs_proj : (s.project_id == pid) = true := hcond
    exact List.mem_map.mpr ⟨s, List.mem_filter.mpr ⟨hs_mem, hs_proj⟩, hs_id⟩

/-- Helper: copied space shares reference copied spaces. -/
theorem sharesToCopy_space_mem (shares : List SpaceShareRow) (ids : List Nat) :
    ∀ d ∈ sharesToCopy shares ids, d.space_id ∈ ids := by
  intro d hd
  have := (List.mem_filter.mp hd).2
  simpa using this

/-- Helper: copied tiles reference copied dashboard versions. -/
theorem tilesToCopy_version_mem (tiles : List DashboardTileRow) (ids : List Nat) :
    ∀ t ∈ tilesToCopy tiles ids, t.dashboard_version_id ∈ ids := by
  intro t ht
  have := (List.mem_filter.mp ht).2
  simpa using this

/-- Helper: copied chart-version content references copied chart
versions. -/
theorem chartVersionContentToCopy_mem (content : List ChartVersionContentRow)
    (ids : List Nat) :
    ∀ r ∈ chartVersionContentToCopy content ids,
      r.saved_queries_version_id ∈ ids := by
  intro r hr
  have := (List.mem_filter.mp hr).2
  simpa using this

/-- Helper: copied tile content references a copied tile uuid and a
copied dashboard version. -/
theorem tileContentToCopy_mem (content : List TileContentRow)
    (uuids : List String) (ids : List Nat) :
    ∀ d ∈ tileContentToCopy content uuids ids,
      d.dashboard_tile_uuid ∈ uuids ∧ d.dashboard_version_id ∈ ids := by
  intro d hd
  have h := (List.mem_filter.mp hd).2
  simp only [Bool.and_eq_true] at h
  exact ⟨by simpa using h.1, by simpa using h.2⟩

/-- Helper: every latest dashboard-version id is the id of some copied
dashboard-version row. -/
theorem dashboardLastVersionIds_mem (V : List DashboardVersionRow)
    (ids : List Nat) :
    ∀ x ∈ dashboardLastVersionIds V ids,
      x ∈ (dashboardVersionsToCopy V ids).map (fun v => v.dashboard_version_id) := by
  intro x hx
  have hx' := mem_groupByMax_sub x hx
  rcases List.mem_map.mp hx' with ⟨q, hq, hq2⟩
  rcases List.mem_map.mp hq with ⟨w, hwS, hwq⟩
  have hwx : w.dashboard_version_id = x := by rw [← hq2, ← hwq]
  refine List.mem_map.mpr ⟨w, ?_, hwx⟩
  refine List.mem_filter.mpr ⟨(List.mem_filter.mp hwS).1, ?_⟩
  rw [hwx]
  simpa using hx

/-- Helper: a `findNewId` lookup resolves whenever the old id is among the
mapping's ids. -/
theorem findNewId_isSome_of_mem {m : List IdMapEntry} {x : Nat}
    (h : x ∈ mappingIds m) : (findNewId m x).isSome = true := by
  unfold findNewId
  rcases List.mem_map.mp h with ⟨e, he, rfl⟩
  have hfs : (m.find? (fun q => q.id == e.id)).isSome = true :=
    List.find?_isSome.mpr ⟨e, he, by simp⟩
  rcases hf : m.find? (fun q => q.id == e.id) with _ | v
  · rw [hf] at hfs; cases hfs
  · simp [hf]

/-- Helper: `getNewSpace` is the same lookup as `findNewId`. -/
theorem getNewSpace_isSome_of_mem {m : List IdMapEntry} {x : Nat}
    (h : x ∈ mappingIds m) : (getNewSpace m x).isSome = true :=
  findNewId_isSome_of_mem h

/-- Helper: the ids of a mapping built by zipping source rows with their
freshly inserted copies are exactly the source ids (inserts preserve row
counts). -/
theorem mappingIds_of_zip {α β : Type} (olds : List α) (news : List β)
    (f : α → Nat) (g : β → Nat) (hlen : olds.length ≤ news.length) :
    mappingIds ((olds.zip news).map (fun p => IdMapEntry.mk (f p.1) (g p.2)))
      = olds.map f := by
  unfold mappingIds
  rw [List.map_map]
  have h1 : ((fun m => m.id) ∘ fun p : α × β => IdMapEntry.mk (f p.1) (g p.2))
      = (f ∘ Prod.fst) := rfl
  rw [h1, ← List.map_map, List.map_fst_zip olds news hlen]

/-- Helper: characterisation of a successful spaces insert. -/
theorem mkNewSpaces_ok {seq0 : Nat} {pp : Option ProjectRow}
    {spaces ns : List SpaceRow} (h : mkNewSpaces seq0 pp spaces = .ok ns) :
    ns.length = spaces.length ∧ ∀ r ∈ ns, seq0 ≤ r.space_id := by
  unfold mkNewSpaces at h
  by_cases he : spaces.isEmpty
  · rw [if_pos he] at h
    injection h with h'
    subst h'
    refine ⟨by simp [List.isEmpty_iff.mp he], ?_⟩
    intro r hr; cases hr
  · rw [if_neg he] at h
    cases pp with
    | none => cases h
    | some p =>
      injection h with h'
      subst h'
      refine ⟨by rw [List.length_map, enumFrom_length], ?_⟩
      intro r hr
      rcases List.mem_map.mp hr with ⟨ir, _, rfl⟩
      simp

/-- Helper: a successful space-share insert preserves the row count. -/
theorem mkNewSpaceShares_ok_length {m : List IdMapEntry}
    {shares ns : List SpaceShareRow} (h : mkNewSpaceShares m shares = .ok ns) :
    ns.length = shares.length := by
  unfold mkNewSpaceShares at h
  by_cases he : shares.isEmpty
  · rw [if_pos he] at h
    injection h with h'
    subst h'
    simp [List.isEmpty_iff.mp he]
  · rw [if_neg he] at h
    exact mapExcept_ok_length h

/-- Helper: a successful charts insert preserves the row count. -/
theorem mkNewCharts_ok_length {seq0 : Nat} {m : List IdMapEntry}
    {charts nc : List SavedChartRow} (h : mkNewCharts seq0 m charts = .ok nc) :
    nc.length = charts.length := by
  unfold mkNewCharts at h
  by_cases he : charts.isEmpty
  · rw [if_pos he] at h
    injection h with h'
    subst h'
    simp [List.isEmpty_iff.mp he]
  · rw [if_neg he] at h
    rw [mapExcept_ok_length h, enumFrom_length]

/-- Helper: a successful chart-versions insert preserves the row count. -/
theorem mkNewChartVersions_ok_length {seq0 : Nat} {m : List IdMapEntry}
    {vs nv : List ChartVersionRow} (h : mkNewChartVersions seq0 m vs = .ok nv) :
    nv.length = vs.length := by
  unfold mkNewChartVersions at h
  by_cases he : vs.isEmpty
  · rw [if_pos he] at h
    injection h with h'
    subst h'
    simp [List.isEmpty_iff.mp he]
  · rw [if_neg he] at h
    rw [mapExcept_ok_length h, enumFrom_length]

/-- Helper: a successful chart-version content copy inserts one row per
selected source row. -/
theorem copyChartVersionContent_ok_length {seq0 : Nat} {ids : List Nat}
    {m : List IdMapEntry} {content nc : List ChartVersionContentRow}
    (h : copyChartVersionContent seq0 ids m content = .ok nc) :
    nc.length = (chartVersionContentToCopy content ids).length := by
  unfold copyChartVersionContent at h
  by_cases he : (chartVersionContentToCopy content ids).isEmpty
  · rw [if_pos he] at h
    injection h with h'
    subst h'
    simp [List.isEmpty_iff.mp he]
  · rw [if_neg he] at h
    rw [mapExcept_ok_length h, enumFrom_length]

/-- Helper: a successful dashboards insert preserves the row count. -/
theorem mkNewDashboards_ok_length {seq0 : Nat} {m : List IdMapEntry}
    {ds nd : List DashboardRow} (h : mkNewDashboards seq0 m ds = .ok nd) :
    nd.length = ds.length := by
  unfold mkNewDashboards at h
  by_cases he : ds.isEmpty
  · rw [if_pos he] at h
    injection h with h'
    subst h'
    simp [List.isEmpty_iff.mp he]
  · rw [if_neg he] at h
    rw [mapExcept_ok_length h, enumFrom_length]

/-- Helper: a successful dashboard-versions insert preserves the row
count. -/
theorem mkNewDashboardVersions_ok_length {seq0 : Nat} {m : List IdMapEntry}
    {vs nv : List DashboardVersionRow}
    (h : mkNewDashboardVersions seq0 m vs = .ok nv) : nv.length = vs.length := by
  unfold mkNewDashboardVersions at h
  by_cases he : vs.isEmpty
  · rw [if_pos he] at h
    injection h with h'
    subst h'
    simp [List.isEmpty_iff.mp he]
  · rw [if_neg he] at h
    rw [mapExcept_ok_length h, enumFrom_length]

/-- Helper: a successful tiles insert copies every selected tile keeping
its `dashboard_tile_uuid` verbatim. -/
theorem mkNewDashboardTiles_ok {m : List IdMapEntry}
    {tiles nt : List DashboardTileRow} (h : mkNewDashboardTiles m tiles = .ok nt) :
    nt.map (fun t => t.dashboard_tile_uuid) =
      tiles.map (fun t => t.dashboard_tile_uuid) := by
  unfold mkNewDashboardTiles at h
  by_cases he : tiles.isEmpty
  · rw [if_pos he] at h
    injection h with h'
    subst h'
    simp [List.isEmpty_iff.mp he]
  · rw [if_neg he] at h
    refine forall₂_map_eq (mapExcept_ok_forall₂ h) _ _ ?_
    intro a b hab
    rcases hbc : bangCol (findNewId m a.dashboard_version_id) with e | dvid <;>
      rw [hbc] at hab
    · cases hab
    · injection hab with h'
      subst h'
      rfl

/-- Helper: a successful tile-content copy inserts one row per selected
source row. -/
theorem copyDashboardTileContent_ok_length {cm dvm : List IdMapEntry}
    {tm : List (String × String)} {uuids : List String} {ids : List Nat}
    {content nc : List TileContentRow}
    (h : copyDashboardTileContent cm dvm tm uuids ids content = .ok nc) :
    nc.length = (tileContentToCopy content uuids ids).length := by
  unfold copyDashboardTileContent at h
  by_cases he : (tileContentToCopy content uuids ids).isEmpty
  · rw [if_pos he] at h
    injection h with h'
    subst h'
    simp [List.isEmpty_iff.mp he]
  · rw [if_neg he] at h
    exact mapExcept_ok_length h

/-- Helper: appending space rows whose ids exceed every id consulted does
not change a `find?` by space id. -/
theorem find?_space_append (ss extra : List SpaceRow) (x : Nat)
    (h : ∀ s ∈ extra, ¬((s.space_id == x) = true)) :
    (ss ++ extra).find? (fun s => s.space_id == x) =
      ss.find? (fun s => s.space_id == x) := by
  rw [List.find?_append, List.find?_eq_none.mpr h]
  cases ss.find? (fun s => s.space_id == x) <;> rfl

/-- Helper: the charts join is unaffected by freshly inserted spaces,
whose ids are at least the sequence bound. -/
theorem chartsInProject_stable (ss extra : List SpaceRow)
    (cs : List SavedChartRow) (pid n : Nat)
    (hcs : ∀ q ∈ cs, q.space_id < n) (hex : ∀ s ∈ extra, n ≤ s.space_id) :
    chartsInProject (ss ++ extra) cs pid = chartsInProject ss cs pid := by
  unfold chartsInProject
  apply List.filter_congr
  intro q hq
  rw [find?_space_append]
  intro s hs
  have h1 := hcs q hq
  have h2 := hex s hs
  simp only [beq_iff_eq]
  omega

/-- Helper: the dashboards join is likewise unaffected by freshly
inserted spaces. -/
theorem dashboardsInProject_stable (ss extra : List SpaceRow)
    (ds : List DashboardRow) (pid n : Nat)
    (hds : ∀ q ∈ ds, q.space_id < n) (hex : ∀ s ∈ extra, n ≤ s.space_id) :
    dashboardsInProject (ss ++ extra) ds pid = dashboardsInProject ss ds pid := by
  unfold dashboardsInProject
  apply List.filter_congr
  intro q hq
  rw [find?_space_append]
  intro s hs
  have h1 := hds q hq
  have h2 := hex s hs
  simp only [beq_iff_eq]
  omega

/-- Helper (master shape lemma): a committed `duplicateContentBody` run
appends exactly the copied rows to every table: one copy per source
space, per in-scope space share, per in-scope chart, per latest chart
version, per chart-version content row, per in-scope dashboard, per
latest dashboard version, per tile of a latest dashboard version — with
the tile uuid column copied verbatim — per tile-content row in scope, and
exactly one `preview_content` mapping record. -/
theorem duplicateContentBody_ok_shape (db : Db) (u pu : String)
    (project : ProjectRow) (dbOut : Db) (hSeq : SeqFresh db)
    (hfind : db.projects.find? (fun p => p.project_uuid == u) = some project)
    (hok : duplicateContentBody db u pu = .ok dbOut) :
    dbOut.spaces.length = db.spaces.length +
      (sourceSpaces db project.project_id).length
    ∧ dbOut.space_share.length = db.space_share.length +
      (sharesToCopy db.space_share (spaceIdsOf db project.project_id)).length
    ∧ dbOut.saved_queries.length = db.saved_queries.length +
      (sourceCharts db project.project_id).length
    ∧ dbOut.saved_queries_versions.length = db.saved_queries_versions.length +
      (chartVersionsToCopy db.saved_queries_versions
        (chartIdsOf db project.project_id)).length
    ∧ dbOut.saved_queries_version_table_calculations.length =
      db.saved_queries_version_table_calculations.length +
      (chartVersionContentToCopy db.saved_queries_version_table_calculations
        (chartVersionIdsOf db project.project_id)).length
    ∧ dbOut.saved_queries_version_sorts.length =
      db.saved_queries_version_sorts.length +
      (chartVersionContentToCopy db.saved_queries_version_sorts
        (chartVersionIdsOf db project.project_id)).length
    ∧ dbOut.saved_queries_version_fields.length =
      db.saved_queries_version_fields.length +
      (chartVersionContentToCopy db.saved_queries_version_fields
        (chartVersionIdsOf db project.project_id)).length
    ∧ dbOut.saved_queries_version_additional_metrics.length =
      db.saved_queries_version_additional_metrics.length +
      (chartVersionContentToCopy db.saved_queries_version_additional_metrics
        (chartVersionIdsOf db project.project_id)).length
    ∧ dbOut.dashboards.length = db.dashboards.length +
      (sourceDashboards db project.project_id).length
    ∧ dbOut.dashboard_versions.length = db.dashboard_versions.length +
      (dashboardVersionsToCopy db.dashboard_versions
        (dashboardIdsOf db project.project_id)).length
    ∧ dbOut.dashboard_tiles.map (fun t => t.dashboard_tile_uuid) =
      db.dashboard_tiles.map (fun t => t.dashboard_tile_uuid) ++
      (tilesToCopy db.dashboard_tiles
        (dashboardVersionIdsOf db project.project_id)).map
        (fun t => t.dashboard_tile_uuid)
    ∧ dbOut.dashboard_tile_charts.length = db.dashboard_tile_charts.length +
      (tileContentToCopy db.dashboard_tile_charts
        (tileUuidsOf db project.project_id)
        (dashboardVersionIdsOf db project.project_id)).length
    ∧ dbOut.dashboard_tile_looms.length = db.dashboard_tile_looms.length +
      (tileContentToCopy db.dashboard_tile_looms
        (tileUuidsOf db project.project_id)
        (dashboardVersionIdsOf db project.project_id)).length
    ∧ dbOut.dashboard_tile_markdowns.length = db.dashboard_tile_markdowns.length +
      (tileContentToCopy db.dashboard_tile_markdowns
        (tileUuidsOf db project.project_id)
        (dashboardVersionIdsOf db project.project_id)).length
    ∧ dbOut.preview_content.length = db.preview_content.length + 1 := by
  unfold duplicateContentBody at hok
  lift_lets at hok
  extract_lets previewProject at hok
  split at hok
  · exact Except.noConfusion hok
  rename_i project0 hproj0
  have hpe := Option.some.inj (hfind.symm.trans hproj0)
  subst hpe
  lift_lets at hok
  extract_lets projectId spaces spaceIds at hok
  split at hok
  · exact Except.noConfusion hok
  rename_i newSpaces hns
  lift_lets at hok
  extract_lets db1 spaceMapping spaceShares at hok
  split at hok
  · exact Except.noConfusion hok
  rename_i newSpaceShare hshares
  lift_lets at hok
  extract_lets db2 charts chartIds at hok
  split at hok
  · exact Except.noConfusion hok
  rename_i newCharts hnc
  lift_lets at hok
  extract_lets db3 chartMapping chartVersions chartVersionIds at hok
  split at hok
  · exact Except.noConfusion hok
  rename_i newChartVersions hnv
  lift_lets at hok
  extract_lets db4 chartVersionMapping at hok
  split at hok
  · exact Except.noConfusion hok
  rename_i newTableCalculations htc
  lift_lets at hok
  extract_lets db5 at hok
  split at hok
  · exact Except.noConfusion hok
  rename_i newSorts hsorts
  lift_lets at hok
  extract_lets db6 at hok
  split at hok
  · exact Except.noConfusion hok
  rename_i newFields hflds
  lift_lets at hok
  extract_lets db7 at hok
  split at hok
  · exact Except.noConfusion hok
  rename_i newAdditionalMetrics hmet
  lift_lets at hok
  extract_lets db8 dashboards dashboardIds at hok
  split at hok
  · exact Except.noConfusion hok
  rename_i newDashboards hnd
  lift_lets at hok
  extract_lets db9 dashboardMapping dashboardVersionIds dashboardVersions at hok
  split at hok
  · exact Except.noConfusion hok
  rename_i newDashboardVersions hndv
  lift_lets at hok
  extract_lets db10 dashboardVersionsMapping dashboardTiles dashboardTileUuids at hok
  split at hok
  · exact Except.noConfusion hok
  rename_i newDashboardTiles hnt
  lift_lets at hok
  extract_lets contentMapping db11 dashboardTilesMapping at hok
  split at hok
  · exact Except.noConfusion hok
  rename_i newTileCharts htcc
  lift_lets at hok
  extract_lets db12 at hok
  split at hok
  · exact Except.noConfusion hok
  rename_i newTileLooms htll
  lift_lets at hok
  extract_lets db13 at hok
  split at hok
  · exact Except.noConfusion hok
  rename_i newTileMarkdowns htmm
  lift_lets at hok
  extract_lets db14 at hok
  have hout := Except.ok.inj hok
  subst hout
  have hchartsEq : charts = sourceCharts db project.project_id :=
    chartsInProject_stable db.spaces newSpaces db.saved_queries
      project.project_id db.seq hSeq.2.1 (mkNewSpaces_ok hns).2
  have hversEq : chartVersions = chartVersionsToCopy db.saved_queries_versions
      (chartIdsOf db project.project_id) := by
    have h0 : chartVersions = chartVersionsToCopy db.saved_queries_versions
        (charts.map (fun c => c.saved_query_id)) := rfl
    rw [h0, hchartsEq]
    rfl
  have hidsEq : chartVersionIds = chartVersionIdsOf db project.project_id := by
    have h0 : chartVersionIds =
        chartVersions.map (fun v => v.saved_queries_version_id) := rfl
    rw [h0, hversEq]
    rfl
  have hdashEq : dashboards = sourceDashboards db project.project_id :=
    dashboardsInProject_stable db.spaces newSpaces db.dashboards
      project.project_id db.seq hSeq.2.2 (mkNewSpaces_ok hns).2
  have hdvEq : dashboardVersions = dashboardVersionsToCopy db.dashboard_versions
      (dashboardIdsOf db project.project_id) := by
    have h0 : dashboardVersions = dashboardVersionsToCopy db.dashboard_versions
        (dashboards.map (fun d => d.dashboard_id)) := rfl
    rw [h0, hdashEq]
    rfl
  have hdvidsEq : dashboardVersionIds =
      dashboardVersionIdsOf db project.project_id := by
    have h0 : dashboardVersionIds = dashboardLastVersionIds db.dashboard_versions
        (dashboards.map (fun d => d.dashboard_id)) := rfl
    rw [h0, hdashEq]
    rfl
  have htilesEq : dashboardTiles = tilesToCopy db.dashboard_tiles
      (dashboardVersionIdsOf db project.project_id) := by
    have h0 : dashboardTiles =
        tilesToCopy db.dashboard_tiles dashboardVersionIds := rfl
    rw [h0, hdvidsEq]
  have htuidsEq : dashboardTileUuids = tileUuidsOf db project.project_id := by
    have h0 : dashboardTileUuids =
        dashboardTiles.map (fun t => t.dashboard_tile_uuid) := rfl
    rw [h0, htilesEq]
    rfl
  refine ⟨?_, ?_, ?_, ?_, ?_, ?_, ?_, ?_, ?_, ?_, ?_, ?_, ?_, ?_, ?_⟩
  · show (db.spaces ++ newSpaces).length = _
    rw [List.length_append, (mkNewSpaces_ok hns).1]
  · show (db.space_share ++ newSpaceShare).length = _
    rw [List.length_append, mkNewSpaceShares_ok_length hshares]
    rfl
  · show (db.saved_queries ++ newCharts).length = _
    rw [List.length_append, mkNewCharts_ok_length hnc, hchartsEq]
  · show (db.saved_queries_versions ++ newChartVersions).length = _
    rw [List.length_append, mkNewChartVersions_ok_length hnv, hversEq]
  · show (db.saved_queries_version_table_calculations ++ newTableCalculations).length = _
    rw [List.length_append]
    have h0 : newTableCalculations.length =
        (chartVersionContentToCopy db.saved_queries_version_table_calculations
          chartVersionIds).length := copyChartVersionContent_ok_length htc
    rw [h0, hidsEq]
  · show (db.saved_queries_version_sorts ++ newSorts).length = _
    rw [List.length_append]
    have h0 : newSorts.length =
        (chartVersionContentToCopy db.saved_queries_version_sorts
          chartVersionIds).length := copyChartVersionContent_ok_length hsorts
    rw [h0, hidsEq]
  · show (db.saved_queries_version_fields ++ newFields).length = _
    rw [List.length_append]
    have h0 : newFields.length =
        (chartVersionContentToCopy db.saved_queries_version_fields
          chartVersionIds).length := copyChartVersionContent_ok_length hflds
    rw [h0, hidsEq]
  · show (db.saved_queries_version_additional_metrics ++ newAdditionalMetrics).length = _
    rw [List.length_append]
    have h0 : newAdditionalMetrics.length =
        (chartVersionContentToCopy db.saved_queries_version_additional_metrics
          chartVersionIds).length := copyChartVersionContent_ok_length hmet
    rw [h0, hidsEq]
  · show (db.dashboards ++ newDashboards).length = _
    rw [List.length_append, mkNewDashboards_ok_length hnd, hdashEq]
  · show (db.dashboard_versions ++ newDashboardVersions).length = _
    rw [List.length_append, mkNewDashboardVersions_ok_length hndv, hdvEq]
  · show (db.dashboard_tiles ++ newDashboardTiles).map (fun t => t.dashboard_tile_uuid) = _
    rw [List.map_append, mkNewDashboardTiles_ok hnt, htilesEq]
  · show (db.dashboard_tile_charts ++ newTileCharts).length = _
    rw [List.length_append]
    have h0 : newTileCharts.length =
        (tileContentToCopy db.dashboard_tile_charts dashboardTileUuids
          dashboardVersionIds).length := copyDashboardTileContent_ok_length htcc
    rw [h0, htuidsEq, hdvidsEq]
  · show (db.dashboard_tile_looms ++ newTileLooms).length = _
    rw [List.length_append]
    have h0 : newTileLooms.length =
        (tileContentToCopy db.dashboard_tile_looms dashboardTileUuids
          dashboardVersionIds).length := copyDashboardTileContent_ok_length htll
    rw [h0, htuidsEq, hdvidsEq]
  · show (db.dashboard_tile_markdowns ++ newTileMarkdowns).length = _
    rw [List.length_append]
    have h0 : newTileMarkdowns.length =
        (tileContentToCopy db.dashboard_tile_markdowns dashboardTileUuids
          dashboardVersionIds).length := copyDashboardTileContent_ok_length htmm
    rw [h0, htuidsEq, hdvidsEq]
  · show (db.preview_content ++ [_]).length = _
    rw [List.length_append]
    rfl

/-- C10: when no project row matches the source uuid, `duplicateContent`
fails with the raw runtime error (reading `project_id` of an absent row) —
not a domain Not-Found error and not a no-op — and the transaction leaves
the database unchanged. -/
theorem duplicateContent_missingSourceProject (db : Db) (u pu : String)
    (h : db.projects.find? (fun p => p.project_uuid == u) = none) :
    duplicateContent db u pu = (db, some .runtimeError)
    ∧ AppError.runtimeError ≠ AppError.notExistsError := by
  refine ⟨?_, by simp⟩
  unfold duplicateContent duplicateContentBody
  rw [h]

/-- Witness for `duplicateContent_missingSourceProject` on the empty
database. -/
theorem duplicateContent_missingSourceProject_witness :
    duplicateContent (default : Db) "absent" "prev" =
      ((default : Db), some .runtimeError) :=
  (duplicateContent_missingSourceProject (default : Db) "absent" "prev" rfl).1

/-- C1: `duplicateContent` is all-or-nothing.  On an error from any step
the transaction rolls back and the returned database is the input
unchanged; on success every copied row is persisted: one copy per source
space, in-scope space share, in-scope chart, latest chart version,
chart-version content row, in-scope dashboard, latest dashboard version,
tile of a latest dashboard version, in-scope tile-content row, plus
exactly one clone mapping record in `preview_content`. -/
theorem duplicateContent_allOrNothing (db : Db) (u pu : String)
    (project : ProjectRow) (hSeq : SeqFresh db)
    (hfind : db.projects.find? (fun p => p.project_uuid == u) = some project) :
    (∀ e, (duplicateContent db u pu).2 = some e → (duplicateContent db u pu).1 = db)
    ∧ ((duplicateContent db u pu).2 = none →
      (duplicateContent db u pu).1.spaces.length = db.spaces.length +
        (sourceSpaces db project.project_id).length
      ∧ (duplicateContent db u pu).1.space_share.length = db.space_share.length +
        (sharesToCopy db.space_share (spaceIdsOf db project.project_id)).length
      ∧ (duplicateContent db u pu).1.saved_queries.length = db.saved_queries.length +
        (sourceCharts db project.project_id).length
      ∧ (duplicateContent db u pu).1.saved_queries_versions.length =
        db.saved_queries_versions.length +
        (chartVersionsToCopy db.saved_queries_versions
          (chartIdsOf db project.project_id)).length
      ∧ (duplicateContent db u pu).1.saved_queries_version_table_calculations.length =
        db.saved_queries_version_table_calculations.length +
        (chartVersionContentToCopy db.saved_queries_version_table_calculations
          (chartVersionIdsOf db project.project_id)).length
      ∧ (duplicateContent db u pu).1.saved_queries_version_sorts.length =
        db.saved_queries_version_sorts.length +
        (chartVersionContentToCopy db.saved_queries_version_sorts
          (chartVersionIdsOf db project.project_id)).length
      ∧ (duplicateContent db u pu).1.saved_queries_version_fields.length =
        db.saved_queries_version_fields.length +
        (chartVersionContentToCopy db.saved_queries_version_fields
          (chartVersionIdsOf db project.project_id)).length
      ∧ (duplicateContent db u pu).1.saved_queries_version_additional_metrics.length =
        db.saved_queries_version_additional_metrics.length +
        (chartVersionContentToCopy db.saved_queries_version_additional_metrics
          (chartVersionIdsOf db project.project_id)).length
      ∧ (duplicateContent db u pu).1.dashboards.length = db.dashboards.length +
        (sourceDashboards db project.project_id).length
      ∧ (duplicateContent db u pu).1.dashboard_versions.length =
        db.dashboard_versions.length +
        (dashboardVersionsToCopy db.dashboard_versions
          (dashboardIdsOf db project.project_id)).length
      ∧ (duplicateContent db u pu).1.dashboard_tiles.map (fun t => t.dashboard_tile_uuid) =
        db.dashboard_tiles.map (fun t => t.dashboard_tile_uuid) ++
        (tilesToCopy db.dashboard_tiles
          (dashboardVersionIdsOf db project.project_id)).map
          (fun t => t.dashboard_tile_uuid)
      ∧ (duplicateContent db u pu).1.dashboard_tile_charts.length =
        db.dashboard_tile_charts.length +
        (tileContentToCopy db.dashboard_tile_charts
          (tileUuidsOf db project.project_id)
          (dashboardVersionIdsOf db project.project_id)).length
      ∧ (duplicateContent db u pu).1.dashboard_tile_looms.length =
        db.dashboard_tile_looms.length +
        (tileContentToCopy db.dashboard_tile_looms
          (tileUuidsOf db project.project_id)
          (dashboardVersionIdsOf db project.project_id)).length
      ∧ (duplicateContent db u pu).1.dashboard_tile_markdowns.length =
        db.dashboard_tile_markdowns.length +
        (tileContentToCopy db.dashboard_tile_markdowns
          (tileUuidsOf db project.project_id)
          (dashboardVersionIdsOf db project.project_id)).length
      ∧ (duplicateContent db u pu).1.preview_content.length =
        db.preview_content.length + 1) := by
  cases hb : duplicateContentBody db u pu with
  | error e =>
    refine ⟨fun e' _ => ?_, fun hn => ?_⟩
    · simp [duplicateContent, hb]
    · simp [duplicateContent, hb] at hn
  | ok dbOut =>
    have hshape := duplicateContentBody_ok_shape db u pu project dbOut hSeq hfind hb
    refine ⟨fun e' he' => ?_, fun _ => ?_⟩
    · simp [duplicateContent, hb] at he'
    · have h1 : duplicateContent db u pu = (dbOut, none) := by
        simp [duplicateContent, hb]
      rw [h1]
      exact hshape

/-- Witness for `duplicateContent_allOrNothing`: on the example database
the clone commits and persists the mapping record and the copied rows. -/
theorem duplicateContent_allOrNothing_witness :
    (duplicateContent cloneDbEx "src" "prev").1.preview_content.length =
      cloneDbEx.preview_content.length + 1
    ∧ (duplicateContent cloneDbEx "src" "prev").1.spaces.length =
      cloneDbEx.spaces.length + (sourceSpaces cloneDbEx 1).length :=
  ⟨((duplicateContent_allOrNothing cloneDbEx "src" "prev" ⟨1, "src"⟩
      (by decide) rfl).2 rfl).2.2.2.2.2.2.2.2.2.2.2.2.2.2,
   ((duplicateContent_allOrNothing cloneDbEx "src" "prev" ⟨1, "src"⟩
      (by decide) rfl).2 rfl).1⟩

/-- C4: `duplicateContent` preserves dashboard tile UUIDs: the uuid
column of the inserted preview tiles is exactly (as a list, hence as a
set) the uuid column of the source tiles belonging to the copied latest
dashboard versions; no tile uuid is regenerated. -/
theorem duplicateContent_preservesTileUuids (db : Db) (u pu : String)
    (project : ProjectRow) (dbOut : Db) (hSeq : SeqFresh db)
    (hfind : db.projects.find? (fun p => p.project_uuid == u) = some project)
    (hok : duplicateContentBody db u pu = .ok dbOut) :
    dbOut.dashboard_tiles.map (fun t => t.dashboard_tile_uuid) =
      db.dashboard_tiles.map (fun t => t.dashboard_tile_uuid) ++
      (tilesToCopy db.dashboard_tiles
        (dashboardVersionIdsOf db project.project_id)).map
        (fun t => t.dashboard_tile_uuid) :=
  (duplicateContentBody_ok_shape db u pu project dbOut hSeq
    hfind hok).2.2.2.2.2.2.2.2.2.2.1

/-- Witness for `duplicateContent_preservesTileUuids` on the example
database. -/
theorem duplicateContent_preservesTileUuids_witness :
    ((duplicateContent cloneDbEx "src" "prev").1).dashboard_tiles.map
        (fun t => t.dashboard_tile_uuid) =
      cloneDbEx.dashboard_tiles.map (fun t => t.dashboard_tile_uuid) ++
      (tilesToCopy cloneDbEx.dashboard_tiles
        (dashboardVersionIdsOf cloneDbEx 1)).map (fun t => t.dashboard_tile_uuid) :=
  duplicateContent_preservesTileUuids cloneDbEx "src" "prev" ⟨1, "src"⟩
    ((duplicateContent cloneDbEx "src" "prev").1) (by decide) rfl (by rfl)

/-- C3: for every in-scope chart (resp. dashboard), `duplicateContent`
selects exactly one version per parent with at least one version: the row
whose version surrogate id is the grouped-aggregation maximum among the
parent's versions; a parent with zero versions contributes zero rows.
`chartVersionsToCopy` / `dashboardVersionsToCopy` are exactly the rows
the cloner inserts, one copy each (see `duplicateContentBody_ok_shape`);
the last conjunct of each half states that the selected id is indeed the
maximum. -/
theorem duplicateContent_latestVersionOnly (db : Db) (pid c d : Nat)
    (hvn : (db.saved_queries_versions.map
      (fun v => v.saved_queries_version_id)).Nodup)
    (hdn : (db.dashboard_versions.map (fun v => v.dashboard_version_id)).Nodup)
    (hc : c ∈ chartIdsOf db pid) (hd : d ∈ dashboardIdsOf db pid) :
    (db.saved_queries_versions.filter (fun v => v.saved_query_id == c) = [] →
      (chartVersionsToCopy db.saved_queries_versions (chartIdsOf db pid)).filter
        (fun v => v.saved_query_id == c) = [])
    ∧ (db.saved_queries_versions.filter (fun v => v.saved_query_id == c) ≠ [] →
      ((chartVersionsToCopy db.saved_queries_versions (chartIdsOf db pid)).filter
        (fun v => v.saved_query_id == c)).map (fun v => v.saved_queries_version_id)
        = [listMax ((db.saved_queries_versions.filter
            (fun v => v.saved_query_id == c)).map
            (fun v => v.saved_queries_version_id))])
    ∧ (∀ v ∈ db.saved_queries_versions.filter (fun v => v.saved_query_id == c),
        v.saved_queries_version_id ≤
          listMax ((db.saved_queries_versions.filter
            (fun v => v.saved_query_id == c)).map
            (fun v => v.saved_queries_version_id)))
    ∧ (db.dashboard_versions.filter (fun v => v.dashboard_id == d) = [] →
      (dashboardVersionsToCopy db.dashboard_versions (dashboardIdsOf db pid)).filter
        (fun v => v.dashboard_id == d) = [])
    ∧ (db.dashboard_versions.filter (fun v => v.dashboard_id == d) ≠ [] →
      ((dashboardVersionsToCopy db.dashboard_versions (dashboardIdsOf db pid)).filter
        (fun v => v.dashboard_id == d)).map (fun v => v.dashboard_version_id)
        = [listMax ((db.dashboard_versions.filter
            (fun v => v.dashboard_id == d)).map (fun v => v.dashboard_version_id))])
    ∧ (∀ v ∈ db.dashboard_versions.filter (fun v => v.dashboard_id == d),
        v.dashboard_version_id ≤
          listMax ((db.dashboard_versions.filter
            (fun v => v.dashboard_id == d)).map (fun v => v.dashboard_version_id))) := by
  refine ⟨?_, ?_, ?_, ?_, ?_, ?_⟩
  · exact (latestSelection_spec (fun v => v.saved_query_id)
      (fun v => v.saved_queries_version_id) db.saved_queries_versions
      (chartIdsOf db pid) hvn c hc).1
  · exact (latestSelection_spec (fun v => v.saved_query_id)
      (fun v => v.saved_queries_version_id) db.saved_queries_versions
      (chartIdsOf db pid) hvn c hc).2
  · intro v hv
    exact le_listMax (List.mem_map.mpr ⟨v, hv, rfl⟩)
  · exact (latestSelection_spec (fun v => v.dashboard_id)
      (fun v => v.dashboard_version_id) db.dashboard_versions
      (dashboardIdsOf db pid) hdn d hd).1
  · exact (latestSelection_spec (fun v => v.dashboard_id)
      (fun v => v.dashboard_version_id) db.dashboard_versions
      (dashboardIdsOf db pid) hdn d hd).2
  · intro v hv
    exact le_listMax (List.mem_map.mpr ⟨v, hv, rfl⟩)

/-- Witness for `duplicateContent_latestVersionOnly`: chart 20 has
versions 30 and 31 and only the maximum is selected; dashboard 40 has
versions 50 and 51 likewise. -/
theorem duplicateContent_latestVersionOnly_witness :
    ((chartVersionsToCopy cloneDbEx.saved_queries_versions
      (chartIdsOf cloneDbEx 1)).filter (fun v => v.saved_query_id == 20)).map
      (fun v => v.saved_queries_version_id)
      = [listMax ((cloneDbEx.saved_queries_versions.filter
          (fun v => v.saved_query_id == 20)).map
          (fun v => v.saved_queries_version_id))]
    ∧ ((dashboardVersionsToCopy cloneDbEx.dashboard_versions
      (dashboardIdsOf cloneDbEx 1)).filter (fun v => v.dashboard_id == 40)).map
      (fun v => v.dashboard_version_id)
      = [listMax ((cloneDbEx.dashboard_versions.filter
          (fun v => v.dashboard_id == 40)).map (fun v => v.dashboard_version_id))] :=
  ⟨(duplicateContent_latestVersionOnly cloneDbEx 1 20 40 (by decide) (by decide)
      (by decide) (by decide)).2.1 (by decide),
   (duplicateContent_latestVersionOnly cloneDbEx 1 20 40 (by decide) (by decide)
      (by decide) (by decide)).2.2.2.2.1 (by decide)⟩

/-- C2 counterexample: the claim says that no input makes the cloner
silently write a null foreign key when a lookup does not resolve, but on
`cloneDbEx` — whose only chart tile references chart 21, which lives in a
dangling space and is therefore outside the cloned scope
(`chartIdsOf cloneDbEx 1 = [20]`) — the clone commits and the inserted
`dashboard_tile_charts` row carries `saved_chart_id = none` (a silent
NULL), while the source row carried `some 21`. -/
theorem copyDashboardTileContent_silentNull_counterexample :
    cloneDbEx.dashboard_tile_charts =
      [⟨"tile-1", 51, some 21, "tc"⟩]
    ∧ chartIdsOf cloneDbEx 1 = [20]
    ∧ (duplicateContentBody cloneDbEx "src" "prev").toOption.map
      (fun dbr => dbr.dashboard_tile_charts.map (fun r => r.saved_chart_id))
      = some [some 21, none] := by
  refine ⟨rfl, rfl, ?_⟩
  rfl

/-- C2 (amended): every remapping lookup into a NOT NULL column resolves
for in-scope ids — copied charts and dashboards reference copied spaces,
copied space shares reference copied spaces, copied chart versions
reference in-scope charts, copied content rows reference copied chart
versions, copied tiles and tile content reference copied (latest)
dashboard versions and copied tile uuids, and a `findNewId`/`getNewSpace`
lookup succeeds whenever the id is in the mapping, whose ids are exactly
the source ids — but the nullable chart reference of a chart tile is the
exception: a tile referencing a chart outside the cloned scope is
silently written with a NULL `saved_chart_id` rather than failing
(concrete run on `cloneDbEx` in the last conjunct). -/
theorem duplicateContent_remapLookups (db : Db) (pid : Nat)
    (hvn : (db.saved_queries_versions.map
      (fun v => v.saved_queries_version_id)).Nodup) :
    (∀ q ∈ sourceCharts db pid, q.space_id ∈ spaceIdsOf db pid)
    ∧ (∀ q ∈ sourceDashboards db pid, q.space_id ∈ spaceIdsOf db pid)
    ∧ (∀ sh ∈ sharesToCopy db.space_share (spaceIdsOf db pid),
        sh.space_id ∈ spaceIdsOf db pid)
    ∧ (∀ v ∈ chartVersionsToCopy db.saved_queries_versions (chartIdsOf db pid),
        v.saved_query_id ∈ chartIdsOf db pid)
    ∧ (∀ r ∈ chartVersionContentToCopy db.saved_queries_version_sorts
        (chartVersionIdsOf db pid),
        r.saved_queries_version_id ∈ chartVersionIdsOf db pid)
    ∧ (∀ x ∈ dashboardVersionIdsOf db pid,
        x ∈ (dashboardVersionsToCopy db.dashboard_versions
          (dashboardIdsOf db pid)).map (fun v => v.dashboard_version_id))
    ∧ (∀ t ∈ tilesToCopy db.dashboard_tiles (dashboardVersionIdsOf db pid),
        t.dashboard_version_id ∈ dashboardVersionIdsOf db pid)
    ∧ (∀ ct ∈ tileContentToCopy db.dashboard_tile_charts
        (tileUuidsOf db pid) (dashboardVersionIdsOf db pid),
        ct.dashboard_tile_uuid ∈ tileUuidsOf db pid
        ∧ ct.dashboard_version_id ∈ dashboardVersionIdsOf db pid)
    ∧ (∀ (m : List IdMapEntry) (x : Nat), x ∈ mappingIds m →
        (findNewId m x).isSome = true ∧ (getNewSpace m x).isSome = true)
    ∧ (∀ news : List SpaceRow, (sourceSpaces db pid).length ≤ news.length →
        mappingIds (((sourceSpaces db pid).zip news).map
          (fun sp => IdMapEntry.mk sp.1.space_id sp.2.space_id))
          = spaceIdsOf db pid)
    ∧ (duplicateContentBody cloneDbEx "src" "prev").toOption.map
      (fun dbr => dbr.dashboard_tile_charts.map (fun r => r.saved_chart_id))
      = some [some 21, none] := by
  refine ⟨sourceCharts_space_mem db pid, sourceDashboards_space_mem db pid,
    sharesToCopy_space_mem db.space_share (spaceIdsOf db pid), ?_,
    chartVersionContentToCopy_mem db.saved_queries_version_sorts
      (chartVersionIdsOf db pid),
    dashboardLastVersionIds_mem db.dashboard_versions (dashboardIdsOf db pid),
    tilesToCopy_version_mem db.dashboard_tiles (dashboardVersionIdsOf db pid),
    tileContentToCopy_mem db.dashboard_tile_charts (tileUuidsOf db pid)
      (dashboardVersionIdsOf db pid),
    fun m x hx => ⟨findNewId_isSome_of_mem hx, getNewSpace_isSome_of_mem hx⟩,
    fun news hlen => mappingIds_of_zip (sourceSpaces db pid) news
      (fun s => s.space_id) (fun s => s.space_id) hlen, ?_⟩
  · exact latestSelection_parent_mem (fun v => v.saved_query_id)
      (fun v => v.saved_queries_version_id) db.saved_queries_versions
      (chartIdsOf db pid) hvn
  · rfl

/-- Witness for `duplicateContent_remapLookups` on the example database:
the in-scope chart's space resolves and the copied chart version's parent
is in scope. -/
theorem duplicateContent_remapLookups_witness :
    (⟨20, "cu", 10, "chart"⟩ : SavedChartRow).space_id ∈ spaceIdsOf cloneDbEx 1
    ∧ (⟨31, "vu1", 20, "v1"⟩ : ChartVersionRow).saved_query_id ∈
        chartIdsOf cloneDbEx 1 :=
  ⟨(duplicateContent_remapLookups cloneDbEx 1 (by decide)).1
      ⟨20, "cu", 10, "chart"⟩ (by decide),
   (duplicateContent_remapLookups cloneDbEx 1 (by decide)).2.2.2.1
      ⟨31, "vu1", 20, "v1"⟩ (by decide)⟩

/-- Witness for `exploreCache_lastWriterWins` on the empty store. -/
theorem exploreCache_lastWriterWins_witness :
    getExploresFromCache
      ((saveExploresToCache ((saveExploresToCache (default : Db) "p" "A").1) "p" "B").1)
      "p" = some "B"
    ∧ ((saveExploresToCache ((saveExploresToCache (default : Db) "p" "A").1) "p" "B").1).cached_explores.filter
        (fun r => r.project_uuid == "p") = [⟨"p", "B"⟩]
    ∧ getExploresFromCache (default : Db) "p" = none :=
  ⟨(exploreCache_lastWriterWins (default : Db) "p" "A" "B").1,
   (exploreCache_lastWriterWins (default : Db) "p" "A" "B").2.1 (by decide),
   (exploreCache_lastWriterWins (default : Db) "p" "A" "B").2.2 rfl⟩

end LightdashProjectModel
